import Mathlib

/-!
Verification of the ticket-details extractor and reconciliation workflow.

The definitions below are a shallow embedding of the two Python sources:
`_1_ticket_automation_withoutapi.py` (OCR-text extraction engine) and
`_2_name_automation.py` (name reconciliation / commit workflow).
Strings are modelled as Lean `String` (a list of characters); regular
expressions from the source are translated into explicit character
scanners with the same matching semantics (greedy/lazy quantifiers and
word boundaries are resolved by hand where the surrounding pattern makes
the search deterministic, as noted at each scanner).  External
collaborators (the PNR lookup service, the spreadsheet store, the
`rapidfuzz` similarity metrics and the `dateutil` parser) are either
passed in as explicit arguments or modelled from the spec, as marked.
-/

namespace TicketExtractor

/-! ## Character utilities (ASCII model of Python `str` predicates) -/

/-- Python `\s` whitespace class (ASCII subset). -/
def isWsChar (c : Char) : Bool :=
  c = ' ' || c = '\t' || c = '\n' || c = '\r' || c = Char.ofNat 11 || c = Char.ofNat 12

def isDigitChar (c : Char) : Bool := '0' ≤ c && c ≤ '9'

def isUpperChar (c : Char) : Bool := 'A' ≤ c && c ≤ 'Z'

def isLowerChar (c : Char) : Bool := 'a' ≤ c && c ≤ 'z'

def isAlphaChar (c : Char) : Bool := isUpperChar c || isLowerChar c

def isAlnumChar (c : Char) : Bool := isAlphaChar c || isDigitChar c

/-- Python regex `\w` word-character class (ASCII). -/
def isWordChar (c : Char) : Bool := isAlnumChar c || c = '_'

/-- ASCII lowercase conversion, models Python `str.lower` on ASCII text. -/
def toLowerCh (c : Char) : Char :=
  if isUpperChar c then Char.ofNat (c.toNat + 32) else c

/-- ASCII uppercase conversion, models Python `str.upper` on ASCII text. -/
def toUpperCh (c : Char) : Char :=
  if isLowerChar c then Char.ofNat (c.toNat - 32) else c

def lowerStr (s : String) : String := String.mk (s.data.map toLowerCh)

def upperStr (s : String) : String := String.mk (s.data.map toUpperCh)

/-- `needle` occurs as a contiguous substring of `hay`
(Python `needle in hay` for nonempty `needle`). -/
def containsSub (hay needle : List Char) : Bool :=
  if needle.isPrefixOf hay then true
  else
    match hay with
    | [] => false
    | _ :: t => containsSub t needle

/-- Python `sub in s` on strings. -/
def strContains (s sub : String) : Bool := containsSub s.data sub.data

/-! ## TicketClassifier — `PNRExtractor.detect_ticket_type` -/

def nonTicketWords : List String :=
  ["invoice", "bill", "receipt", "buyer", "seller", "gstin", "tea store"]

def ticketWords : List String :=
  ["pnr", "train no", "passenger", "booking"]

def flightKw : List String :=
  ["indigo", "6e", "flight", "terminal", "check-in", "boarding pass",
   "cleartrip", "makemytrip", "booking confirmed"]

def trainKw : List String :=
  ["irctc", "electronic reservation", "train no", "coach", "berth",
   "quota", "vananchal", "kriya yoga", "vande bharat", "booking id : tk",
   "pnr :", "passenger status", "current status"]

/-- `PNRExtractor.detect_ticket_type`: classify lowercased OCR text as
TRAIN / FLIGHT / UNKNOWN.  The non-ticket short-circuit returns UNKNOWN
only when a non-ticket marker is present and every ticket marker is
absent; otherwise keyword hits are counted per keyword set. -/
def detect_ticket_type (text : String) : String :=
  let t := lowerStr text
  if nonTicketWords.any (fun w => strContains t w) &&
     !(ticketWords.any (fun w => strContains t w)) then "UNKNOWN"
  else
    let flight_score := (flightKw.filter (fun kw => strContains t kw)).length
    let train_score := (trainKw.filter (fun kw => strContains t kw)).length
    if flight_score > train_score && flight_score ≥ 2 then "FLIGHT"
    else if train_score > 0 then "TRAIN"
    else "UNKNOWN"

/-! Spec-side restatement of the classifier decision rule, written from the
claim text: UNKNOWN on (non-ticket marker present ∧ no ticket marker);
otherwise FLIGHT iff the flight-keyword hit count strictly exceeds the
train-keyword hit count and is at least 2, else TRAIN iff the
train-keyword hit count is positive, else UNKNOWN. -/

def flightHits (t : String) : Nat := flightKw.countP (fun kw => strContains t kw)

def trainHits (t : String) : Nat := trainKw.countP (fun kw => strContains t kw)

def classifySpec (text : String) : String :=
  let t := lowerStr text
  if nonTicketWords.any (fun w => strContains t w) &&
     ticketWords.all (fun w => !strContains t w) then "UNKNOWN"
  else if flightHits t ≥ 2 && trainHits t < flightHits t then "FLIGHT"
  else if 0 < trainHits t then "TRAIN"
  else "UNKNOWN"

/-! ## Identifier extraction — `PNRExtractor.extract_pnr_from_text`

Three ordered rules, first match wins:
1. `extract_spaced_pnr`: regex `(?:\d\s+){9}\d` (ten digits separated by
   whitespace), whitespace stripped; the match always yields 10 digits.
2. `PNR[:=\s]*([A-Z0-9]{6,10})\b` (IGNORECASE), result uppercased.
3. `\b\d{10}\b` candidates, dropping those with an excluded prefix.
-/

/-- Word boundary after a token: the next character (if any) is not a
word character.  Models the regex `\b` when the preceding character is
known to be a word character. -/
def boundaryAfter : List Char → Bool
  | [] => true
  | c :: _ => !isWordChar c

/-- Match `(?:\d\s+){n}\d` at the head of the list, returning the digits.
The whitespace runs are matched greedily; since `\s` and `\d` are
disjoint this equals the regex's backtracking semantics. -/
def spacedRun : Nat → List Char → Option (List Char)
  | 0, c :: _ => if isDigitChar c then some [c] else none
  | 0, [] => none
  | n + 1, c :: rest =>
    if isDigitChar c && !(rest.takeWhile isWsChar).isEmpty then
      (spacedRun n (rest.dropWhile isWsChar)).map (fun ds => c :: ds)
    else none
  | _ + 1, [] => none

/-- Leftmost match of `(?:\d\s+){9}\d` (as `re.findall` would report
first). -/
def scanSpaced : List Char → Option (List Char)
  | [] => none
  | l@(_ :: t) =>
    match spacedRun 9 l with
    | some ds => some ds
    | none => scanSpaced t

/-- `extract_spaced_pnr`: first spaced-digit match whose concatenation is
10 digits long (always the case for a match of the pattern). -/
def extract_spaced_pnr (text : String) : Option String :=
  match scanSpaced text.data with
  | some ds => if ds.length = 10 then some (String.mk ds) else none
  | none => none

/-- Characters skipped by `[:=\s]*` in the PNR-label pattern. -/
def isPnrSep (c : Char) : Bool := c = ':' || c = '=' || isWsChar c

/-- The three letters p,n,r at the head, case-insensitively. -/
def pnrLabelAt : List Char → Bool
  | p :: n :: r :: _ => toLowerCh p = 'p' && toLowerCh n = 'n' && toLowerCh r = 'r'
  | _ => false

/-- Leftmost match of `PNR[:=\s]*([A-Z0-9]{lo,hi})\b` (IGNORECASE),
returning the group.  At each `PNR` occurrence the separator class and
the alphanumeric class are disjoint from what follows them, so the
greedy quantifiers are deterministic; a run longer than `hi` fails the
trailing `\b` for every length in `[lo,hi]` (the next character is
alphanumeric), so the scan resumes at the next position. -/
def scanPnrLabeled (lo hi : Nat) : List Char → Option (List Char)
  | [] => none
  | l@(_ :: t) =>
    if pnrLabelAt l then
      let afterSep := (l.drop 3).dropWhile isPnrSep
      let run := afterSep.takeWhile isAlnumChar
      if lo ≤ run.length && run.length ≤ hi && boundaryAfter (afterSep.drop run.length) then
        some run
      else scanPnrLabeled lo hi t
    else scanPnrLabeled lo hi t

/-- Maximal 10-digit runs with word boundaries on both sides
(`\b\d{10}\b` via `re.findall`), in text order.  `prevWord` records
whether the previous character of the original text is a word
character (false at the start of the text). -/
def tenDigitRuns (prevWord : Bool) : List Char → List String
  | [] => []
  | c :: t =>
    if !prevWord && isDigitChar c then
      let run := c :: t.takeWhile isDigitChar
      if run.length = 10 && boundaryAfter (t.drop 9) then
        String.mk run :: tenDigitRuns true t
      else tenDigitRuns true t
    else tenDigitRuns (isWordChar c) t

/-- Excluded date-like / phone-like identifier heads. -/
def excludedHeads : List String := ["201", "202", "203", "982", "100"]

def startsWithAny (s : String) (heads : List String) : Bool :=
  heads.any (fun p => p.data.isPrefixOf s.data)

/-- `PNRExtractor.extract_pnr_from_text`. -/
def extract_pnr_from_text (text : String) : Option String :=
  match extract_spaced_pnr text with
  | some pnr => some pnr
  | none =>
    match scanPnrLabeled 6 10 text.data with
    | some g => some (String.mk (g.map toUpperCh))
    | none =>
      let candidates := (tenDigitRuns false text.data).filter
        (fun c => !startsWithAny c excludedHeads)
      candidates.head?

example : extract_pnr_from_text "6 5 6 2 5 2 6 4 9 6" = some "6562526496" := by decide
example : extract_pnr_from_text "PNR: AB12CD" = some "AB12CD" := by decide
example : extract_pnr_from_text "2026021399" = none := by decide
example : extract_pnr_from_text "ref 6562526496 end" = some "6562526496" := by decide

/-! ## Whitespace normalisation helpers

`collapseWs` models `re.sub(r"\s+", " ", s)` (every maximal whitespace
run becomes a single space); `trimSpaces` models Python `str.strip`. -/

def collapseWs (prevWs : Bool) : List Char → List Char
  | [] => []
  | c :: t =>
    if isWsChar c then
      if prevWs then collapseWs true t else ' ' :: collapseWs true t
    else c :: collapseWs false t

def trimRight : List Char → List Char
  | [] => []
  | c :: t =>
    match trimRight t with
    | [] => if isWsChar c then [] else [c]
    | r => c :: r

def trimSpaces (l : List Char) : List Char := trimRight (l.dropWhile isWsChar)

/-- Python `s.replace(pat, rep)`: left-to-right non-overlapping
replacement of every occurrence.  The fuel argument (instantiated with
the input length) bounds the scan; one character or one pattern
occurrence is consumed per step, so `l.length` fuel is always enough. -/
def replaceSub (pat rep : List Char) : Nat → List Char → List Char
  | 0, l => l
  | _ + 1, [] => []
  | n + 1, l@(c :: t) =>
    if pat.isPrefixOf l && !pat.isEmpty then rep ++ replaceSub pat rep n (l.drop pat.length)
    else c :: replaceSub pat rep n t

/-! ## Flight extraction — `FlightExtractor.extract_flight_details`

The flight-number block of the source reads, for the first pattern in
its list, `m = re.search(...)` and then immediately `len(m.groups())`
without checking `m` for `None`, and ends the loop with an unconditional
`break` (so the second, `Flight No`-labelled pattern is never
consulted).  When the first pattern has no match this raises
`AttributeError`; the embedding returns that exception through
`Except.error`.  All remaining field extractions are `None`-guarded in
the source and cannot throw. -/

def airlineTable : List (String × String) :=
  [("indigo", "IndiGo"), ("6e", "IndiGo"),
   ("air india express", "Air India Express"),
   ("air india", "Air India"),
   ("vistara", "Vistara"), ("spicejet", "SpiceJet")]

/-- First airline whose key occurs in the lowercased text (Python dict
iteration order = insertion order). -/
def findAirline (text : String) : String :=
  let tl := lowerStr text
  match airlineTable.findSome? (fun kv => if strContains tl kv.1 then some kv.2 else none) with
  | some a => a
  | none => ""

def flightCodes : List String := ["IX", "I5", "AI", "6E", "UK", "SG", "QP"]

/-- Case-insensitive match of one of the two-character carrier codes at
the head of the list, returning the matched text and the remainder. -/
def matchCarrierCode (l : List Char) : Option (List Char × List Char) :=
  flightCodes.findSome? (fun code =>
    match l, code.data with
    | a :: b :: rest, c1 :: c2 :: [] =>
      if toUpperCh a = c1 && toUpperCh b = c2 then some ([a, b], rest) else none
    | _, _ => none)

def isDashWs (c : Char) : Bool := c = '-' || isWsChar c

/-- Leftmost match of `\b(IX|I5|AI|6E|UK|SG|QP)\s*[-\s]*(\d{3,4})\b`
(IGNORECASE), returning the two groups as they appear in the text.
`\s*[-\s]*` is a maximal run over whitespace and dashes; `(\d{3,4})\b`
matches a maximal digit run of length 3 or 4 followed by a non-word
character (a longer run fails the boundary for both lengths). -/
def scanFlightNum1 (prevWord : Bool) : List Char → Option (String × String)
  | [] => none
  | c :: t =>
    let here : Option (String × String) :=
      if prevWord then none
      else
        match matchCarrierCode (c :: t) with
        | some (code, rest) =>
          let afterSep := rest.dropWhile isDashWs
          let run := afterSep.takeWhile isDigitChar
          if 3 ≤ run.length && run.length ≤ 4 && boundaryAfter (afterSep.drop run.length)
          then some (String.mk code, String.mk run)
          else none
        | none => none
    match here with
    | some r => some r
    | none => scanFlightNum1 (isWordChar c) t

/-! ### Route — `([A-Z][a-z]+(?:\s+[A-Z][a-z]+)?)\s*[-→–]\s*(same)` -/

/-- `[A-Z][a-z]+` (case-sensitive): an uppercase letter followed by a
maximal nonempty lowercase run. -/
def matchCityWord : List Char → Option (List Char × List Char)
  | c :: t =>
    if isUpperChar c then
      let run := t.takeWhile isLowerChar
      if run.isEmpty then none else some (c :: run, t.drop run.length)
    else none
  | [] => none

def isRouteDash (c : Char) : Bool := c = '-' || c = '→' || c = '–'

/-- Consume `\s*[-→–]\s*`. -/
def matchDashPart (l : List Char) : Option (List Char) :=
  match l.dropWhile isWsChar with
  | c :: t => if isRouteDash c then some (t.dropWhile isWsChar) else none
  | [] => none

/-- The second capture `([A-Z][a-z]+(?:\s+[A-Z][a-z]+)?)`: greedy
optional second word, nothing follows it in the pattern. -/
def matchCityPhrase (l : List Char) : Option (List Char × List Char) :=
  match matchCityWord l with
  | none => none
  | some (w1, r1) =>
    let ws := r1.takeWhile isWsChar
    if ws.isEmpty then some (w1, r1)
    else
      match matchCityWord (r1.drop ws.length) with
      | some (w2, r2) => some (w1 ++ ws ++ w2, r2)
      | none => some (w1, r1)

/-- Match the route pattern at the current position.  The optional
second word of the first capture is tried greedily and the dash part
acts as its continuation (regex backtracking order). -/
def matchRouteAt (l : List Char) : Option (String × String) :=
  match matchCityWord l with
  | none => none
  | some (w1, r1) =>
    let withSecond : Option (List Char × List Char) :=
      let ws := r1.takeWhile isWsChar
      if ws.isEmpty then none
      else
        match matchCityWord (r1.drop ws.length) with
        | some (w2, r2) =>
          match matchDashPart r2 with
          | some rest => some (w1 ++ ws ++ w2, rest)
          | none => none
        | none => none
    match withSecond with
    | some (g1, rest) => (matchCityPhrase rest).map (fun p => (String.mk g1, String.mk p.1))
    | none =>
      match matchDashPart r1 with
      | some rest => (matchCityPhrase rest).map (fun p => (String.mk w1, String.mk p.1))
      | none => none

def scanRoute : List Char → Option (String × String)
  | [] => none
  | l@(_ :: t) =>
    match matchRouteAt l with
    | some r => some r
    | none => scanRoute t

/-! ### Date patterns (three ordered alternatives, `m.group(0)` kept) -/

def monthNames : List String :=
  ["Jan", "Feb", "Mar", "Apr", "May", "Jun", "Jul", "Aug", "Sep", "Oct", "Nov", "Dec"]

def weekdayNames : List String := ["Mon", "Tue", "Wed", "Thu", "Fri", "Sat", "Sun"]

/-- Case-insensitive three-letter alternation match. -/
def matchName3 (names : List String) (l : List Char) : Option (List Char × List Char) :=
  names.findSome? (fun nm =>
    match l, nm.data with
    | a :: b :: c :: rest, x :: y :: z :: [] =>
      if toLowerCh a = toLowerCh x && toLowerCh b = toLowerCh y && toLowerCh c = toLowerCh z
      then some ([a, b, c], rest) else none
    | _, _ => none)

/-- `\b(\d{1,2})\s+(Jan|...)[a-z]*\s+[,']?(\d{2,4})\b` (IGNORECASE) at
the current position, returning the whole match. -/
def dateP1At (l : List Char) : Option (List Char) :=
  let drun := l.takeWhile isDigitChar
  if drun.length = 0 || drun.length > 2 then none
  else
    let r1 := l.drop drun.length
    let ws1 := r1.takeWhile isWsChar
    if ws1.isEmpty then none
    else
      match matchName3 monthNames (r1.drop ws1.length) with
      | none => none
      | some (mon, r2) =>
        let letters := r2.takeWhile isAlphaChar
        let r3 := r2.drop letters.length
        let ws2 := r3.takeWhile isWsChar
        if ws2.isEmpty then none
        else
          let r4 := r3.drop ws2.length
          let pr5 : List Char × List Char :=
            match r4 with
            | c :: t => if c = ',' || c = '\'' then ([c], t) else ([], r4)
            | [] => ([], r4)
          let yrun := pr5.2.takeWhile isDigitChar
          if 2 ≤ yrun.length && yrun.length ≤ 4 && boundaryAfter (pr5.2.drop yrun.length)
          then some (drun ++ ws1 ++ mon ++ letters ++ ws2 ++ pr5.1 ++ yrun)
          else none

/-- `\b(Mon|...)[a-z]*,?\s+(\d{1,2})\s+(Jan|...)[a-z]*\s+(\d{4})\b`
(IGNORECASE) at the current position. -/
def dateP2At (l : List Char) : Option (List Char) :=
  match matchName3 weekdayNames l with
  | none => none
  | some (wd, r0) =>
    let letters := r0.takeWhile isAlphaChar
    let r1 := r0.drop letters.length
    let pr2 : List Char × List Char :=
      match r1 with
      | c :: t => if c = ',' then ([c], t) else ([], r1)
      | [] => ([], r1)
    let ws1 := pr2.2.takeWhile isWsChar
    if ws1.isEmpty then none
    else
      let r3 := pr2.2.drop ws1.length
      let drun := r3.takeWhile isDigitChar
      if drun.length = 0 || drun.length > 2 then none
      else
        let r4 := r3.drop drun.length
        let ws2 := r4.takeWhile isWsChar
        if ws2.isEmpty then none
        else
          match matchName3 monthNames (r4.drop ws2.length) with
          | none => none
          | some (mon, r5) =>
            let letters2 := r5.takeWhile isAlphaChar
            let r6 := r5.drop letters2.length
            let ws3 := r6.takeWhile isWsChar
            if ws3.isEmpty then none
            else
              let r7 := r6.drop ws3.length
              let yrun := r7.takeWhile isDigitChar
              if yrun.length = 4 && boundaryAfter (r7.drop yrun.length)
              then some (wd ++ letters ++ pr2.1 ++ ws1 ++ drun ++ ws2 ++ mon ++ letters2 ++ ws3 ++ yrun)
              else none

/-- `\b(\d{1,2}) sep (\d{1,2}) sep (\d{2,4})\b` where `sep` is the
character class of slash and dash, at the current position. -/
def dateP3At (l : List Char) : Option (List Char) :=
  let d1 := l.takeWhile isDigitChar
  if d1.length = 0 || d1.length > 2 then none
  else
    match l.drop d1.length with
    | s1 :: r1 =>
      if s1 = '/' || s1 = '-' then
        let d2 := r1.takeWhile isDigitChar
        if d2.length = 0 || d2.length > 2 then none
        else
          match r1.drop d2.length with
          | s2 :: r2 =>
            if s2 = '/' || s2 = '-' then
              let d3 := r2.takeWhile isDigitChar
              if 2 ≤ d3.length && d3.length ≤ 4 && boundaryAfter (r2.drop d3.length)
              then some (d1 ++ [s1] ++ d2 ++ [s2] ++ d3)
              else none
            else none
          | [] => none
      else none
    | [] => none

/-- `re.search` over a pattern that begins with `\b` before a word
character: try the matcher at every position whose preceding character
is not a word character. -/
def scanB (f : List Char → Option (List Char)) : Bool → List Char → Option (List Char)
  | _, [] => none
  | prevWord, c :: t =>
    if !prevWord then
      match f (c :: t) with
      | some g => some g
      | none => scanB f (isWordChar c) t
    else scanB f (isWordChar c) t

/-! ### Times — `re.findall(r'\b(\d{1,2}:\d{2})\s*(?:hrs|HRS)?\b', text)` -/

/-- Resolve the trailing `\s*(?:hrs|HRS)?\b` after the minutes, with the
regex's greedy backtracking over the whitespace run.  Returns the
remainder after the full match together with whether the match's last
character is a word character (used to resume the non-overlapping
scan), or `none` when no backtracking choice satisfies the boundary. -/
def timeTrailEnd (rest : List Char) : Option (Bool × List Char) :=
  let ws := rest.takeWhile isWsChar
  let r1 := rest.drop ws.length
  if ("hrs".data.isPrefixOf r1 || "HRS".data.isPrefixOf r1) && boundaryAfter (r1.drop 3) then
    some (true, r1.drop 3)
  else if ws.isEmpty then
    match r1 with
    | [] => some (true, [])
    | c :: _ => if !isWordChar c then some (true, r1) else none
  else
    match r1 with
    | c :: _ => if isWordChar c then some (false, r1) else some (true, rest)
    | [] => some (true, rest)

/-- All `\b(\d{1,2}:\d{2})` group-1 matches in text order
(non-overlapping, as `re.findall`).  The fuel (instantiated with the
text length) bounds the scan: every step consumes at least one
character. -/
def scanTimes : Nat → Bool → List Char → List String
  | 0, _, _ => []
  | _ + 1, _, [] => []
  | n + 1, prevWord, c :: t =>
    let noMatch : List String := scanTimes n (isWordChar c) t
    if !prevWord && isDigitChar c then
      let hrun := (c :: t).takeWhile isDigitChar
      if hrun.length ≤ 2 then
        match (c :: t).drop hrun.length with
        | ':' :: r =>
          let mrun := r.takeWhile isDigitChar
          if 2 ≤ mrun.length then
            match timeTrailEnd (r.drop 2) with
            | some (endsWord, rest) =>
              String.mk (hrun ++ [':'] ++ r.take 2) :: scanTimes n endsWord rest
            | none => noMatch
          else noMatch
        | _ => noMatch
      else noMatch
    else noMatch

/-! ### Flight passengers — `PNRExtractor.extract_flight_passengers` -/

structure FlightPax where
  name : String
  seat : String
deriving DecidableEq, Repr

/-- `\s*\(ADULT\)` (IGNORECASE): whitespace then the literal. -/
def matchAdultClose (l : List Char) : Option (List Char) :=
  let r := l.dropWhile isWsChar
  if (r.take 7).map toLowerCh = "(adult)".data then some (r.drop 7) else none

/-- Lazy `[A-Z\s]+?` (IGNORECASE) followed by `\s*\(ADULT\)`: consume
one class character at a time, trying the closing literal after each
(shortest match first, as the lazy quantifier does).  Returns the
characters captured inside the group and the remainder after the
closing literal. -/
def lazyAdult : List Char → Option (List Char × List Char)
  | [] => none
  | c :: t =>
    if isAlphaChar c || isWsChar c then
      match matchAdultClose t with
      | some rest => some ([c], rest)
      | none => (lazyAdult t).map (fun p => (c :: p.1, p.2))
    else none

/-- The optional `s?\.?` after `M[rs]`, as (consumed, rest) pairs in the
regex's greedy backtracking order. -/
def optTitleTails (l : List Char) : List (List Char × List Char) :=
  let sOpts : List (List Char × List Char) :=
    match l with
    | s :: t => if toLowerCh s = 's' then [([s], t), ([], l)] else [([], l)]
    | [] => [([], l)]
  sOpts.flatMap (fun p =>
    match p.2 with
    | d :: t => if d = '.' then [(p.1 ++ [d], t), (p.1, p.2)] else [(p.1, p.2)]
    | [] => [(p.1, p.2)])

/-- Pattern `\b(M[rs]s?\.?\s+[A-Z][A-Z\s]+?)\s*\(ADULT\)` (IGNORECASE)
at the current position: returns (group 1, rest after the whole match). -/
def paxAAt : List Char → Option (List Char × List Char)
  | m :: x :: rest1 =>
    if toLowerCh m = 'm' && (toLowerCh x = 'r' || toLowerCh x = 's') then
      (optTitleTails rest1).findSome? (fun p =>
        let ws := p.2.takeWhile isWsChar
        if ws.isEmpty then none
        else
          match p.2.drop ws.length with
          | c1 :: r2 =>
            if isAlphaChar c1 then
              (lazyAdult r2).map (fun q => (m :: x :: (p.1 ++ ws ++ (c1 :: q.1)), q.2))
            else none
          | [] => none)
    else none
  | _ => none

/-- Pattern `\b(M[rs]\.?\s+[A-Z][a-z]+\s+[A-Z][a-z]+)\b` (IGNORECASE):
with IGNORECASE both letter classes match any letter, so each name word
is a maximal letter run of length at least 2, and the final `\b`
requires a non-word character after the second word. -/
def paxBAt : List Char → Option (List Char × List Char)
  | m :: x :: r0 =>
    if toLowerCh m = 'm' && (toLowerCh x = 'r' || toLowerCh x = 's') then
      let dotRest : List Char × List Char :=
        match r0 with
        | d :: t => if d = '.' then ([d], t) else ([], r0)
        | [] => ([], r0)
      let ws1 := dotRest.2.takeWhile isWsChar
      if ws1.isEmpty then none
      else
        let r2 := dotRest.2.drop ws1.length
        let w1 := r2.takeWhile isAlphaChar
        if w1.length < 2 then none
        else
          let r3 := r2.drop w1.length
          let ws2 := r3.takeWhile isWsChar
          if ws2.isEmpty then none
          else
            let r4 := r3.drop ws2.length
            let w2 := r4.takeWhile isAlphaChar
            if w2.length < 2 then none
            else
              let rest := r4.drop w2.length
              if boundaryAfter rest then
                some (m :: x :: (dotRest.1 ++ ws1 ++ w1 ++ ws2 ++ w2), rest)
              else none
    else none
  | _ => none

/-- `re.findall` for a pattern starting with `\b` before a word
character: collect group 1 of every non-overlapping match in text
order.  `endsWord` says whether a match of this pattern always ends in
a word character (resuming flag for the scan); fuel as in `scanTimes`. -/
def findAllBnd (f : List Char → Option (List Char × List Char)) (endsWord : Bool) :
    Nat → Bool → List Char → List (List Char)
  | 0, _, _ => []
  | _ + 1, _, [] => []
  | n + 1, prevWord, c :: t =>
    if !prevWord then
      match f (c :: t) with
      | some (g, rest) => g :: findAllBnd f endsWord n endsWord rest
      | none => findAllBnd f endsWord n (isWordChar c) t
    else findAllBnd f endsWord n (isWordChar c) t

def flightNameBadWords : List String :=
  ["ALLOWED", "ITEMS", "BAGGAGE", "BOOKING", "DETAILS", "PAYMENT",
   "TICKET", "FLIGHT", "TERMINAL", "CHECK", "INFORMATION", "IMPORTANT",
   "CONTACT", "CUSTOMER", "SUPPORT", "YATRA", "DIGI", "AVOID"]

/-- `PNRExtractor._is_valid_flight_name`. -/
def is_valid_flight_name (name : String) : Bool :=
  let nu := upperStr name
  if flightNameBadWords.any (fun b => strContains nu b) then false
  else if !(name.data.contains ' ') then false
  else if name.data.length < 5 || name.data.length > 40 then false
  else if name.data.any isDigitChar then false
  else true

/-- Cleaning applied to each raw regex group:
`re.sub(r'\s+', ' ', match.strip())` then the three title-dot
replacements. -/
def cleanFlightPaxName (g : List Char) : String :=
  let s1 := collapseWs false (trimSpaces g)
  let s2 := replaceSub "Mr.".data "Mr".data s1.length s1
  let s3 := replaceSub "Ms.".data "Ms".data s2.length s2
  let s4 := replaceSub "Mrs.".data "Mrs".data s3.length s3
  String.mk s4

/-- `PNRExtractor.extract_flight_passengers`: run both patterns in
order, validate, and deduplicate case-insensitively on the name. -/
def extract_flight_passengers (text : String) : List FlightPax :=
  let groups := findAllBnd paxAAt false text.data.length false text.data
             ++ findAllBnd paxBAt true text.data.length false text.data
  groups.foldl (fun acc g =>
    let name := cleanFlightPaxName g
    if is_valid_flight_name name && !(acc.any (fun p => upperStr p.name = upperStr name))
    then acc ++ [⟨name, ""⟩] else acc) []

/-! ### `FlightExtractor.extract_flight_details` -/

structure FlightDetails where
  airline : String := ""
  flight_number : String := ""
  pnr : String := ""
  route : String := ""
  date : String := ""
  departure_time : String := ""
  arrival_time : String := ""
  passengers : List FlightPax := []
deriving DecidableEq, Repr

/-- Message of the `AttributeError` raised by calling `.groups()` on
the `None` returned by a failed `re.search`. -/
def attrErrorMsg : String := "'NoneType' object has no attribute 'groups'"

/-- `FlightExtractor.extract_flight_details`.  The flight-number block
uses `re.search`'s result without a `None` check and breaks out of its
pattern loop unconditionally, so exactly the first pattern is tried and
a failed search raises `AttributeError` (returned as `Except.error`);
every other field is `None`-guarded and defaults to the empty string. -/
def extract_flight_details (text : String) : Except String FlightDetails :=
  let airline := findAirline text
  match scanFlightNum1 false text.data with
  | none => Except.error attrErrorMsg
  | some (g1, g2) =>
    let flight_number := g1 ++ " " ++ g2
    let pnr :=
      match scanPnrLabeled 6 6 text.data with
      | some g => String.mk (g.map toUpperCh)
      | none => ""
    let route :=
      match scanRoute text.data with
      | some (a, b) => a ++ " → " ++ b
      | none => ""
    let date :=
      match scanB dateP1At false text.data with
      | some g => String.mk g
      | none =>
        match scanB dateP2At false text.data with
        | some g => String.mk g
        | none =>
          match scanB dateP3At false text.data with
          | some g => String.mk g
          | none => ""
    let times := scanTimes text.data.length false text.data
    let dep_arr : String × String :=
      match times with
      | t1 :: t2 :: _ => (t1, t2)
      | _ => ("", "")
    Except.ok
      { airline := airline, flight_number := flight_number, pnr := pnr,
        route := route, date := date,
        departure_time := dep_arr.1, arrival_time := dep_arr.2,
        passengers := extract_flight_passengers text }

example : extract_flight_details "" = Except.error attrErrorMsg := rfl
example : scanTimes 20 false "10:35 and 12:40 hrs".data = ["10:35", "12:40"] := by decide
example : extract_flight_passengers "Mr Rahul Sharma (ADULT)" = [⟨"Mr Rahul Sharma", ""⟩] := by decide
example : (extract_flight_details "AI 123").isOk = true := by decide
example : extract_flight_details "Indigo 6E 204 Delhi - Mumbai on 20 Feb 2026, 10:35 16:20 Mr Rahul Sharma (ADULT)" =
    Except.ok { airline := "IndiGo", flight_number := "6E 204", pnr := "",
                route := "Delhi → Mumbai", date := "20 Feb 2026",
                departure_time := "10:35", arrival_time := "16:20",
                passengers := [⟨"Mr Rahul Sharma", ""⟩] } := rfl

/-! ## Train passenger extraction — `PNRExtractor.extract_train_passengers`

Three line-level rules tried in order per line, with a blocklist, a
minimum line length, and OCR-artifact cleaning. -/

/-- Python `str.splitlines` (ASCII newline conventions). -/
def splitLinesAux (cur : List Char) : List Char → List (List Char)
  | [] => [cur.reverse]
  | '\r' :: '\n' :: t => cur.reverse :: splitLinesAux [] t
  | '\n' :: t => cur.reverse :: splitLinesAux [] t
  | '\r' :: t => cur.reverse :: splitLinesAux [] t
  | c :: t => splitLinesAux (c :: cur) t

def splitLines (l : List Char) : List (List Char) := splitLinesAux [] l

/-- Python `str.split()` (split on whitespace runs, no empty words);
fueled by the input length. -/
def splitWsF : Nat → List Char → List (List Char)
  | 0, _ => []
  | _ + 1, [] => []
  | n + 1, c :: t =>
    if isWsChar c then splitWsF n t
    else (c :: t.takeWhile (fun x => !isWsChar x)) :: splitWsF n (t.dropWhile (fun x => !isWsChar x))

/-- Python `str.title` on ASCII text: a letter is uppercased after a
non-letter and lowercased after a letter. -/
def titleCase (prevAlpha : Bool) : List Char → List Char
  | [] => []
  | c :: t =>
    if isAlphaChar c then
      (if prevAlpha then toLowerCh c else toUpperCh c) :: titleCase true t
    else c :: titleCase false t

/-- `re.findall(r'[A-Z][a-z]+', name)` (case-sensitive): maximal
capital-then-lowercase runs in order; fueled by the input length. -/
def upperLowerRuns : Nat → List Char → List (List Char)
  | 0, _ => []
  | _ + 1, [] => []
  | n + 1, c :: t =>
    if isUpperChar c then
      let run := t.takeWhile isLowerChar
      if run.isEmpty then upperLowerRuns n t
      else (c :: run) :: upperLowerRuns n (t.drop run.length)
    else upperLowerRuns n t

def trainLineBlocklist : List String :=
  ["CHECK TIMINGS", "PASSENGER DETAILS", "ELECTRONIC RESERVATION",
   "BOOKED FROM", "BOARDING AT", "TRANSACTION ID", "ACRONYMS",
   "NAME", "AGE", "GENDER", "BOOKING STATUS", "CURRENT STATUS",
   "PASSENGER STATUS", "COACH", "SEAT", "BERTH", "CHART NOT PREPARED",
   "CATERING SERVICE"]

def cleanNameBadWords : List String :=
  ["CONFIRMED", "AVAILABLE", "BOOKING", "STATUS", "PASSENGER", "OPTION"]

/-- `PNRExtractor._clean_ocr_name`. -/
def clean_ocr_name (raw : List Char) : String :=
  let n1 := trimSpaces raw
  let n2 := n1.map (fun c => if c = '!' || c = '|' then 'I' else c)
  let n3 := collapseWs false n2
  if n3.any isDigitChar || n3.length < 3 then ""
  else if cleanNameBadWords.any (fun b => containsSub (n3.map toUpperCh) b.data) then ""
  else if !(n3.contains ' ') && n3.length > 8 then
    let parts := upperLowerRuns n3.length n3
    if 2 ≤ parts.length then String.mk (List.intercalate [' '] parts)
    else String.mk (titleCase false n3)
  else String.mk (titleCase false n3)

/-! Rule 1 (IRCTC):
`^\d+\.\s+([A-Z!|I][A-Z!\s|I]+?)\s+(\d{1,3})\s+([MFmf|I])\s+[\|\s]*(CNF|WL|RAC|VEG)`
with IGNORECASE.  The lazy name group grows one class character at a
time until the age/gender/status continuation matches. -/

def isNameClassChar (c : Char) : Bool := isAlphaChar c || c = '!' || c = '|'

def isNameClassWs (c : Char) : Bool := isNameClassChar c || isWsChar c

def isGenderChar (c : Char) : Bool :=
  toLowerCh c = 'm' || toLowerCh c = 'f' || toLowerCh c = 'i' || c = '|'

def trainStatusLits : List String := ["cnf", "wl", "rac", "veg"]

/-- The `\s+(\d{1,3})\s+([MFmf|I])\s+[\|\s]*(CNF|WL|RAC|VEG)`
continuation of rule 1. -/
def irctcCont (l : List Char) : Bool :=
  let ws1 := l.takeWhile isWsChar
  if ws1.isEmpty then false
  else
    let r1 := l.drop ws1.length
    let drun := r1.takeWhile isDigitChar
    if drun.length = 0 || drun.length > 3 then false
    else
      let r2 := r1.drop drun.length
      let ws2 := r2.takeWhile isWsChar
      if ws2.isEmpty then false
      else
        match r2.drop ws2.length with
        | g :: r3 =>
          if isGenderChar g then
            let ws3 := r3.takeWhile isWsChar
            if ws3.isEmpty then false
            else
              let r4 := (r3.drop ws3.length).dropWhile (fun c => c = '|' || isWsChar c)
              trainStatusLits.any (fun st => (r4.take st.data.length).map toLowerCh = st.data)
          else false
        | [] => false

/-- Lazy body of rule 1's name group (shortest extension first). -/
def lazyIrctc : List Char → Option (List Char)
  | [] => none
  | c :: t =>
    if isNameClassWs c then
      if irctcCont t then some [c]
      else (lazyIrctc t).map (fun ds => c :: ds)
    else none

/-- Rule 1 matched against a whole line (the `^` anchor restricts the
search to the line start); returns the raw name group. -/
def irctcMatchLine (l : List Char) : Option (List Char) :=
  let drun := l.takeWhile isDigitChar
  if drun.isEmpty then none
  else
    match l.drop drun.length with
    | '.' :: r1 =>
      let ws := r1.takeWhile isWsChar
      if ws.isEmpty then none
      else
        match r1.drop ws.length with
        | c :: t => if isNameClassChar c then (lazyIrctc t).map (fun p => c :: p) else none
        | [] => none
    | _ => none

/-! Rule 2 (ixigo):
`^\d+\.\s+([A-Z][A-Za-z\s]+?),\s*(\d{1,3})\s*,\s*([MF])\s*$` with
IGNORECASE. -/

/-- The `,\s*(\d{1,3})\s*,\s*([MF])\s*$` continuation of rule 2. -/
def ixigoCont (l : List Char) : Bool :=
  match l with
  | ',' :: r1 =>
    let r2 := r1.dropWhile isWsChar
    let drun := r2.takeWhile isDigitChar
    if drun.length = 0 || drun.length > 3 then false
    else
      match (r2.drop drun.length).dropWhile isWsChar with
      | ',' :: r3 =>
        match r3.dropWhile isWsChar with
        | g :: r4 =>
          (toLowerCh g = 'm' || toLowerCh g = 'f') && (r4.dropWhile isWsChar).isEmpty
        | [] => false
      | _ => false
  | _ => false

/-- Lazy body of rule 2's name group. -/
def lazyIxigo : List Char → Option (List Char)
  | [] => none
  | c :: t =>
    if isAlphaChar c || isWsChar c then
      if ixigoCont t then some [c]
      else (lazyIxigo t).map (fun ds => c :: ds)
    else none

/-- Rule 2 matched against a whole line; returns the raw name group. -/
def ixigoMatchLine (l : List Char) : Option (List Char) :=
  let drun := l.takeWhile isDigitChar
  if drun.isEmpty then none
  else
    match l.drop drun.length with
    | '.' :: r1 =>
      let ws := r1.takeWhile isWsChar
      if ws.isEmpty then none
      else
        match r1.drop ws.length with
        | c :: t => if isAlphaChar c then (lazyIxigo t).map (fun p => c :: p) else none
        | [] => none
    | _ => none

/-- Rule 3 (app screenshot): `re.match(r'^[A-Z][A-Z\s]{3,40}$', line)`,
case-sensitive. -/
def appPatternMatch (l : List Char) : Bool :=
  match l with
  | c :: t =>
    isUpperChar c && 3 ≤ t.length && t.length ≤ 40 &&
    t.all (fun x => isUpperChar x || isWsChar x)
  | [] => false

/-- `PNRExtractor.extract_train_passengers`: per (stripped, collapsed,
nonempty) line, skip blocklisted or short lines, then try the three
rules in order; cleaned names are deduplicated by exact value and
appended in document order. -/
def extract_train_passengers (text : String) : List String :=
  let lines := (splitLines text.data).filterMap (fun l =>
    let st := trimSpaces l
    if st.isEmpty then none else some (collapseWs false st))
  lines.foldl (fun names line =>
    if trainLineBlocklist.any (fun b => containsSub (line.map toUpperCh) b.data) then names
    else if line.length < 4 then names
    else
      match irctcMatchLine line with
      | some g =>
        let raw := clean_ocr_name g
        if raw ≠ "" && !(names.contains raw) then names ++ [raw] else names
      | none =>
        match ixigoMatchLine line with
        | some g =>
          let raw := clean_ocr_name g
          if raw ≠ "" && !(names.contains raw) then names ++ [raw] else names
        | none =>
          if appPatternMatch line then
            let words := splitWsF line.length line
            if words.length ≥ 1 && words.all (fun w => 2 ≤ w.length) then
              let raw := clean_ocr_name line
              if raw ≠ "" && !(names.contains raw) then names ++ [raw] else names
            else names
          else names) []

example : extract_train_passengers "1. RAHUL KUMAR 32 M | CNF" = ["Rahul Kumar"] := by decide
example : extract_train_passengers "SONAL DEVI" = ["Sonal Devi"] := by decide

/-! ## External lookup model and `TrainPNRAPI.parse_train_response` -/

/-- One entry of the authoritative `passengerList`; `none` models an
absent JSON key (the berth numbers arrive as numbers and are passed
through `str`, modelled here as the already-converted string). -/
structure ApiPassenger where
  currentCoachId : Option String := none
  bookingCoachId : Option String := none
  currentBerthNo : Option String := none
  bookingBerthNo : Option String := none
  currentBerthCode : Option String := none
  bookingBerthCode : Option String := none
  currentStatusDetails : Option String := none
deriving DecidableEq, Repr

structure TrainData where
  pnrNumber : String := ""
  trainNumber : String := ""
  trainName : String := ""
  dateOfJourney : String := ""
  arrivalDate : String := ""
  passengerList : List ApiPassenger := []
deriving DecidableEq, Repr

/-- The external lookup's JSON payload: `data = none` models a falsy
`response.get('data', {})`. -/
structure TrainResponse where
  success : Bool := false
  data : Option TrainData := none
deriving DecidableEq, Repr

structure Passenger where
  name : String := ""
  coach : String := ""
  seat : String := ""
  berth : String := ""
  status : String := ""
deriving DecidableEq, Repr

/-- Consolidated record produced by the extraction pipeline; unset dict
keys are modelled by the defaults.  A record is an ERROR record iff
`error` is set. -/
structure TicketRecord where
  mode : String := ""
  error : Option String := none
  filename : String := ""
  pnr : String := ""
  train_number : String := ""
  train_name : String := ""
  journey_date : String := ""
  departure_time : String := ""
  arrival_date : String := ""
  arrival_time : String := ""
  passengers : List Passenger := []
  details : String := ""
  airline : String := ""
  flight_number : String := ""
  route : String := ""
  date : String := ""
deriving DecidableEq, Repr

def digitsToNat (l : List Char) : Nat :=
  l.foldl (fun acc c => acc * 10 + (c.toNat - '0'.toNat)) 0

def pad2 (n : Nat) : String := (if n < 10 then "0" else "") ++ toString n

def pad4 (n : Nat) : String :=
  (if n < 10 then "000" else if n < 100 then "00" else if n < 1000 then "0" else "") ++ toString n

/-- Modelled from the spec: stands for the external general date/time
parser (`dateutil.parser.parse`, an excluded collaborator), restricted
to the ISO forms `YYYY-MM-DD` and `YYYY-MM-DD HH:MM` that this pipeline
itself produces; any other input is a parse failure (`none`), as the
parser's exception is in the source. -/
def parseDateTimeModel (s : String) : Option (Nat × Nat × Nat × Nat × Nat) :=
  let datePart (a b c d e f g h : Char) : Option (Nat × Nat × Nat) :=
    if [a, b, c, d, e, f, g, h].all isDigitChar then
      let y := digitsToNat [a, b, c, d]
      let mo := digitsToNat [e, f]
      let da := digitsToNat [g, h]
      if 1 ≤ mo && mo ≤ 12 && 1 ≤ da && da ≤ 31 then some (y, mo, da) else none
    else none
  match s.data with
  | [a, b, c, d, '-', e, f, '-', g, h] =>
    (datePart a b c d e f g h).map (fun p => (p.1, p.2.1, p.2.2, 0, 0))
  | [a, b, c, d, '-', e, f, '-', g, h, ' ', i, j, ':', k, l] =>
    match datePart a b c d e f g h with
    | some p =>
      if [i, j, k, l].all isDigitChar then
        let hh := digitsToNat [i, j]
        let mi := digitsToNat [k, l]
        if hh ≤ 23 && mi ≤ 59 then some (p.1, p.2.1, p.2.2, hh, mi) else none
      else none
    | none => none
  | _ => none

/-- The manual time fallback
`re.search(r'(\d{1,2}):(\d{2})(?::(\d{2}))?\s*(AM|PM)?', s)` (no word
boundaries, `AM`/`PM` case-sensitive), at one position: returns
(hour value, minute text, AM/PM flag) — `some true` for PM. -/
def looseTimeAt (l : List Char) : Option (Nat × List Char × Option Bool) :=
  let afterHour (h : Nat) (r : List Char) : Option (Nat × List Char × Option Bool) :=
    let mrun := r.take 2
    if mrun.length = 2 && mrun.all isDigitChar then
      let r1 := r.drop 2
      let r2 :=
        match r1 with
        | ':' :: s1 :: s2 :: t => if isDigitChar s1 && isDigitChar s2 then t else r1
        | _ => r1
      let r3 := r2.dropWhile isWsChar
      let ampm : Option Bool :=
        if "PM".data.isPrefixOf r3 then some true
        else if "AM".data.isPrefixOf r3 then some false
        else none
      some (h, mrun, ampm)
    else none
  match l with
  | d1 :: d2 :: ':' :: r =>
    if isDigitChar d1 && isDigitChar d2 then afterHour (digitsToNat [d1, d2]) r
    else if isDigitChar d1 then none
    else none
  | d1 :: ':' :: r => if isDigitChar d1 then afterHour (digitsToNat [d1]) r else none
  | _ => none

def scanLooseTime : List Char → Option (Nat × List Char × Option Bool)
  | [] => none
  | l@(_ :: t) =>
    match looseTimeAt l with
    | some r => some r
    | none => scanLooseTime t

/-- The except-branch time recovery: adjust the hour by AM/PM and
format `f"{hour:02d}:{minute}"`; empty when no time is found. -/
def looseTimeFallback (s : String) : String :=
  match scanLooseTime s.data with
  | some (h, mins, ampm) =>
    let h' :=
      match ampm with
      | some true => if h ≠ 12 then h + 12 else h
      | some false => if h = 12 then 0 else h
      | none => h
    pad2 h' ++ ":" ++ String.mk mins
  | none => ""

/-- Date/time derivation for one free-form field of the payload: on
parse success, `strftime("%Y-%m-%d")` and `strftime("%H:%M")`; on parse
failure, the raw string and the manual time fallback; empty field stays
empty. -/
def dateFieldParse (s : String) : String × String :=
  if s = "" then ("", "")
  else
    match parseDateTimeModel s with
    | some (y, mo, da, hh, mi) =>
      (pad4 y ++ "-" ++ pad2 mo ++ "-" ++ pad2 da, pad2 hh ++ ":" ++ pad2 mi)
    | none => (s, looseTimeFallback s)

/-- `TrainPNRAPI.parse_train_response`: failure gates, date/time
derivation, and the positional merge of the authoritative passenger
list with the OCR-extracted names (placeholder `Passenger N` when the
extracted names run short). -/
def parse_train_response (resp : TrainResponse) (passenger_names : List String) : TicketRecord :=
  if !resp.success then
    { pnr := "UNKNOWN", mode := "TRAIN", error := some "API failed", passengers := [] }
  else
    match resp.data with
    | none => { pnr := "UNKNOWN", mode := "TRAIN", error := some "No data", passengers := [] }
    | some data =>
      let jd := dateFieldParse data.dateOfJourney
      let ad := dateFieldParse data.arrivalDate
      let passengers := data.passengerList.enum.map (fun ip =>
        let idx := ip.1
        let p := ip.2
        ({ name := (passenger_names.get? idx).getD ("Passenger " ++ toString (idx + 1)),
           coach := p.currentCoachId.getD (p.bookingCoachId.getD ""),
           seat := p.currentBerthNo.getD (p.bookingBerthNo.getD "0"),
           berth := p.currentBerthCode.getD (p.bookingBerthCode.getD ""),
           status := p.currentStatusDetails.getD "" } : Passenger))
      { pnr := data.pnrNumber, mode := "TRAIN",
        train_number := data.trainNumber, train_name := data.trainName,
        journey_date := jd.1, departure_time := jd.2,
        arrival_date := ad.1, arrival_time := ad.2,
        passengers := passengers,
        details := data.trainNumber ++ " / " ++ data.trainName,
        error := none }

/-! ## `TicketProcessor` -/

/-- `TicketProcessor.process_flight`; propagates the flight extractor's
exception (caught later in `process_ticket`). -/
def process_flight (text filename : String) : Except String TicketRecord :=
  match extract_flight_details text with
  | Except.error e => Except.error e
  | Except.ok fd =>
    if fd.passengers.isEmpty then
      Except.ok { error := some "No passengers found in flight ticket",
                  filename := filename, mode := "ERROR" }
    else
      Except.ok
        { mode := "FLIGHT", airline := fd.airline, flight_number := fd.flight_number,
          pnr := fd.pnr, route := fd.route, date := fd.date,
          departure_time := fd.departure_time, arrival_time := fd.arrival_time,
          passengers := fd.passengers.map (fun p => { name := p.name, seat := p.seat }),
          details := fd.airline ++ " " ++ fd.flight_number,
          filename := filename, error := none }

/-- `TicketProcessor.process_train`.  The network call
`check_train_pnr` is an external collaborator; its result (`None` on
any transport failure or non-200 status) is the `api_response`
argument. -/
def process_train (text filename : String) (api_response : Option TrainResponse) : TicketRecord :=
  match extract_pnr_from_text text with
  | none => { error := some "PNR not found in ticket", filename := filename, mode := "ERROR" }
  | some pnr =>
    match api_response with
    | none =>
      { error := some ("API failed for PNR " ++ pnr), filename := filename,
        pnr := pnr, mode := "ERROR" }
    | some resp =>
      { parse_train_response resp (extract_train_passengers text) with filename := filename }

/-- `TicketProcessor.process_ticket` from the OCR transcript on (the
file-to-image and OCR steps are the excluded black box); the outer
`try/except` turns any raised exception into a `Processing failed`
ERROR record. -/
def process_ticket_text (text filename : String) (api_response : Option TrainResponse) : TicketRecord :=
  match detect_ticket_type text with
  | "FLIGHT" =>
    (match process_flight text filename with
     | Except.ok r => r
     | Except.error e =>
       { error := some ("Processing failed: " ++ e), filename := filename, mode := "ERROR" })
  | "TRAIN" => process_train text filename api_response
  | _ =>
    { error := some "Unknown ticket type (not a valid train/flight ticket)",
      filename := filename, mode := "ERROR" }

/-! ## Name reconciliation — `NameMatcher` (second source file)

`normalize_name`: uppercase, strip the honorific/kinship token set
(regex alternation with `\b` boundaries), strip all characters other
than capital letters and spaces, collapse whitespace, strip. -/

def honorifics : List String :=
  ["KR", "KUMAR", "DEVI", "SHRI", "SMT", "MR", "MRS", "MS", "MISS", "SRI"]

/-- Length of the honorific token matching at the head of the list with
a word boundary after it (the alternation is tried in source order, a
failed trailing `\b` backtracking into the later alternatives). -/
def honorificAt (l : List Char) : Option Nat :=
  honorifics.findSome? (fun tk =>
    if tk.data.isPrefixOf l && boundaryAfter (l.drop tk.data.length) then
      some tk.data.length
    else none)

/-- `re.sub(r"\b(KR|KUMAR|...)\b", "", name)`: scan left to right; at
every position whose preceding original character is not a word
character, remove a boundary-delimited token and resume after it (the
removed token's last character, a letter, is the new preceding
character).  Fueled by the input length; at least one character is
consumed per step. -/
def removeHonorificsF : Nat → Bool → List Char → List Char
  | 0, _, l => l
  | _ + 1, _, [] => []
  | n + 1, prevWord, l@(c :: t) =>
    if !prevWord then
      match honorificAt l with
      | some k => removeHonorificsF n true (l.drop k)
      | none => c :: removeHonorificsF n (isWordChar c) t
    else c :: removeHonorificsF n (isWordChar c) t

def removeHonorifics (l : List Char) : List Char := removeHonorificsF l.length false l

/-- `NameMatcher.normalize_name`. -/
def normalize_name (name : String) : String :=
  if name = "" then ""
  else
    let u := name.data.map toUpperCh
    let r := removeHonorifics u
    let f := r.filter (fun c => isUpperChar c || c = ' ')
    String.mk (trimSpaces (collapseWs false f))

example : normalize_name "Mr Rahul Sharma" = "RAHUL SHARMA" := by decide
example : normalize_name "  SMT  Sita  Devi " = "SITA" := by decide
example : normalize_name "M.R" = "MR" := by decide
example : normalize_name "MR" = "" := by decide

/-! ### Fuzzy matching — `NameMatcher.match_against_master`

The two `rapidfuzz` similarity metrics (`partial_ratio` and
`token_sort_ratio`, 0–100) are external collaborators, passed in as the
arguments `pSim` and `tSim`; scores are modelled as naturals. -/

def MATCH_THRESHOLD : Nat := 85

structure MasterEntry where
  raw : String := ""
  norm : String := ""
  row_no : Nat := 0
  place : String := ""
  venue : String := ""
deriving DecidableEq, Repr

/-- `{**master, "score": final_score}`. -/
structure ScoredEntry where
  entry : MasterEntry
  score : Nat
deriving DecidableEq, Repr

def insertDescByScore (x : ScoredEntry) : List ScoredEntry → List ScoredEntry
  | [] => [x]
  | y :: ys => if y.score < x.score then x :: y :: ys else y :: insertDescByScore x ys

/-- Stable descending sort by score (`matches.sort(key=..., reverse=True)`;
Python's sort is stable, and a stable sort is uniquely determined by
the key, so this insertion sort computes the same list). -/
def sortDescByScore : List ScoredEntry → List ScoredEntry
  | [] => []
  | x :: xs => insertDescByScore x (sortDescByScore xs)

/-- Loop body of `match_against_master`: score one registry entry as
the maximum of the two similarities, append it when the threshold is
met, and track the running best score. -/
def matchFold (pSim tSim : String → String → Nat) (norm_passenger : String)
    (acc : List ScoredEntry × Nat) (m : MasterEntry) : List ScoredEntry × Nat :=
  let partial_score := pSim norm_passenger m.norm
  let token_score := tSim norm_passenger m.norm
  let final_score := max partial_score token_score
  if MATCH_THRESHOLD ≤ final_score then
    (acc.1 ++ [⟨m, final_score⟩], if acc.2 < final_score then final_score else acc.2)
  else acc

/-- `NameMatcher.match_against_master`. -/
def match_against_master (pSim tSim : String → String → Nat)
    (passenger_name : String) (master_names : List MasterEntry) :
    List ScoredEntry × Nat :=
  if passenger_name = "" || master_names.isEmpty then ([], 0)
  else
    let norm_passenger := normalize_name passenger_name
    let acc := master_names.foldl (matchFold pSim tSim norm_passenger) ([], 0)
    (sortDescByScore acc.1, acc.2)

/-! ### `DateHelper` -/

/-- The departure cutoff `date(2026, 2, 13)` as `y*10000 + m*100 + d`;
for in-range month/day fields this key ordering is the calendar
ordering. -/
def DEPARTURE_DATE_KEY : Nat := 20260213

def tripleKey (y mo da : Nat) : Nat := y * 10000 + mo * 100 + da

/-- `DateHelper.is_departure_date`: empty or unparseable dates are
`False`; otherwise compare against the cutoff (the general parser is
modelled by `parseDateTimeModel`). -/
def is_departure_date (date_str : String) : Bool :=
  if date_str = "" then false
  else
    match parseDateTimeModel date_str with
    | some (y, mo, da, _, _) => decide (DEPARTURE_DATE_KEY ≤ tripleKey y mo da)
    | none => false

/-- `DateHelper.format_mmddyy`: normalize a parseable date to
`MM/DD/YY`, returning unparseable input unchanged. -/
def format_mmddyy (date_str : String) : String :=
  if date_str = "" then ""
  else
    match parseDateTimeModel date_str with
    | some (y, mo, da, _, _) => pad2 mo ++ "/" ++ pad2 da ++ "/" ++ pad2 (y % 100)
    | none => date_str

example : is_departure_date "2026-02-20" = true := by decide
example : is_departure_date "2026-02-10" = false := by decide
example : is_departure_date "" = false := by decide
example : format_mmddyy "2026-02-20" = "02/20/26" := by decide

/-! ### `SheetManager.read_ticket_sheet` and the workflow state -/

structure Ticket where
  row_no : Nat := 0
  journey_date : String := ""
  departure_time : String := ""
  arrival_date : String := ""
  arrival_time : String := ""
  mode : String := ""
  seat : String := ""
  details : String := ""
  name : String := ""
  train_number : String := ""
  train_name : String := ""
  status : String := ""
  pnr : String := ""
  source : String := ""
  suggested : String := ""
  score : String := ""
  approved : String := ""
  commit_status : String := ""
deriving DecidableEq, Repr

/-- One sheet row (columns A..Q as positions 0..16) to a ticket;
`row[i] if len(row) > i else ""` is `getD`. -/
def mkTicket (idx : Nat) (row : List String) : Ticket :=
  { row_no := idx,
    journey_date := row.getD 0 "", departure_time := row.getD 1 "",
    arrival_date := row.getD 2 "", arrival_time := row.getD 3 "",
    mode := row.getD 4 "", seat := row.getD 5 "", details := row.getD 6 "",
    name := row.getD 7 "", train_number := row.getD 8 "", train_name := row.getD 9 "",
    status := row.getD 10 "", pnr := row.getD 11 "", source := row.getD 12 "",
    suggested := row.getD 13 "", score := row.getD 14 "",
    approved := row.getD 15 "", commit_status := row.getD 16 "" }

/-- `enumerate(rows, start=idx)` keeping only rows with at least 8
cells (`if len(row) < 8: continue`). -/
def readTickets (idx : Nat) : List (List String) → List Ticket
  | [] => []
  | row :: rest =>
    if row.length < 8 then readTickets (idx + 1) rest
    else mkTicket idx row :: readTickets (idx + 1) rest

/-- `SheetManager.read_ticket_sheet` over the raw `A2:Q` value rows. -/
def read_ticket_sheet (rows : List (List String)) : List Ticket := readTickets 2 rows

/-! ### Step 1 — `VerificationWorkflow.step1_match_and_suggest` -/

/-- The per-ticket suggestion write of step 1 (`write_match_result`
arguments), or `none` when the row is skipped. -/
def step1Row (pSim tSim : String → String → Nat)
    (master_names : List MasterEntry) (t : Ticket) : Option (String × Nat) :=
  if t.commit_status = "COMMITTED" then none
  else if t.mode = "ERROR" then none
  else if t.name = "" then none
  else
    let mb := match_against_master pSim tSim t.name master_names
    match mb.1 with
    | m0 :: m1 :: _ =>
      if m0.score - m1.score ≤ 3 then some ("DUPLICATE: " ++ m0.entry.raw, mb.2)
      else some (m0.entry.raw, mb.2)
    | [m0] => some (m0.entry.raw, mb.2)
    | [] => some ("", mb.2)

/-! ### Step 2 — `VerificationWorkflow.step2_autofill_and_commit` -/

structure MasterUpdate where
  cell : String
  value : String
deriving DecidableEq, Repr

def MASTER_SHEET : String := "Master"

inductive CommitOutcome where
  | skip
  | lookupError (msg : String)
  | committed (updates : List MasterUpdate)
deriving DecidableEq, Repr

/-- The exact case-insensitive registry lookup of the commit phase. -/
def findMaster (master_names : List MasterEntry) (approved_name : String) : Option MasterEntry :=
  master_names.find? (fun m => upperStr m.raw = upperStr approved_name)

/-- One iteration of the commit loop (phase 2 of step 2) for a single
ticket row: skip guards, registry lookup, date routing, and the fixed
destination column block (AE–AJ for DEPARTURE, I–N for ARRIVAL). -/
def commitRow (master_names : List MasterEntry) (t : Ticket) : CommitOutcome :=
  if t.approved = "" || t.mode = "ERROR" then .skip
  else if t.commit_status = "COMMITTED" then .skip
  else
    match findMaster master_names t.approved with
    | none => .lookupError ("ERROR: '" ++ t.approved ++ "' not found")
    | some m =>
      let master_row := m.row_no
      if is_departure_date t.journey_date then
        let formatted_date := format_mmddyy t.journey_date
        let time_value := if t.departure_time = "" then t.arrival_time else t.departure_time
        .committed
          [⟨MASTER_SHEET ++ "!AE" ++ toString master_row, formatted_date⟩,
           ⟨MASTER_SHEET ++ "!AF" ++ toString master_row, t.mode⟩,
           ⟨MASTER_SHEET ++ "!AG" ++ toString master_row, t.seat⟩,
           ⟨MASTER_SHEET ++ "!AH" ++ toString master_row, t.train_number⟩,
           ⟨MASTER_SHEET ++ "!AI" ++ toString master_row, t.train_name⟩,
           ⟨MASTER_SHEET ++ "!AJ" ++ toString master_row, time_value⟩]
      else
        let date_to_write := if t.mode = "FLIGHT" then t.journey_date else t.arrival_date
        let formatted_date := format_mmddyy date_to_write
        let time_value := if t.arrival_time = "" then t.departure_time else t.arrival_time
        .committed
          [⟨MASTER_SHEET ++ "!I" ++ toString master_row, formatted_date⟩,
           ⟨MASTER_SHEET ++ "!J" ++ toString master_row, t.mode⟩,
           ⟨MASTER_SHEET ++ "!K" ++ toString master_row, t.seat⟩,
           ⟨MASTER_SHEET ++ "!L" ++ toString master_row, t.train_number⟩,
           ⟨MASTER_SHEET ++ "!M" ++ toString master_row, t.train_name⟩,
           ⟨MASTER_SHEET ++ "!N" ++ toString master_row, time_value⟩]

/-- Master-sheet writes contributed by one commit-loop iteration. -/
def outcomeMasterWrites : CommitOutcome → List MasterUpdate
  | .committed us => us
  | _ => []

/-- Commit-status cell written for the row by one iteration (`none`
when the row is skipped and its status cell is untouched). -/
def outcomeStatus : CommitOutcome → Option String
  | .skip => none
  | .lookupError msg => some msg
  | .committed _ => some "COMMITTED"

/-- Loop body of the commit phase: extend the master-update batch and
the status batch according to the row's outcome. -/
def commitFold (master_names : List MasterEntry)
    (acc : List MasterUpdate × List (Nat × String)) (t : Ticket) :
    List MasterUpdate × List (Nat × String) :=
  match commitRow master_names t with
  | .skip => acc
  | .lookupError msg => (acc.1, acc.2 ++ [(t.row_no, msg)])
  | .committed us => (acc.1 ++ us, acc.2 ++ [(t.row_no, "COMMITTED")])

/-- Phase 2 of step 2 over the ticket list: accumulated master-sheet
updates and per-row commit-status updates, in loop order. -/
def commitPhase (master_names : List MasterEntry) (tickets : List Ticket) :
    List MasterUpdate × List (Nat × String) :=
  tickets.foldl (commitFold master_names) ([], [])

/-- The ticket row as re-read after the commit phase's status batch:
each row's status cell receives the status its own iteration produced
(rows are uniquely keyed by row number in the sheet). -/
def applyCommitOutcome (master_names : List MasterEntry) (t : Ticket) : Ticket :=
  match outcomeStatus (commitRow master_names t) with
  | some s => { t with commit_status := s }
  | none => t

/-! ### Sheet-level runs of the two steps (for the frame property) -/

/-- Write value `v` into column `c` of a row, padding with empty cells
as the spreadsheet write does. -/
def setCellPadded (row : List String) (c : Nat) (v : String) : List String :=
  (row ++ List.replicate (c + 1 - row.length) "").set c v

def setCell : List (List String) → Nat → Nat → String → List (List String)
  | [], _, _, _ => []
  | r :: rs, 0, c, v => setCellPadded r c v :: rs
  | r :: rs, j + 1, c, v => r :: setCell rs j c v

/-- Step 1 over the raw sheet rows: the suggestion writes
(`write_match_result`: row, suggested name, best score into columns
N and O) and the updated sheet. -/
def step1_match_and_suggest (pSim tSim : String → String → Nat)
    (master_names : List MasterEntry) (rows0 : List (List String)) :
    List (List String) × List (Nat × String × Nat) :=
  let tickets := read_ticket_sheet rows0
  let writes := tickets.filterMap (fun t =>
    (step1Row pSim tSim master_names t).map (fun r => (t.row_no, r.1, r.2)))
  let rows1 := writes.foldl (fun rs w =>
    setCell (setCell rs (w.1 - 2) 13 w.2.1) (w.1 - 2) 14 (toString w.2.2)) rows0
  (rows1, writes)

/-- Phase 1 of step 2: `write_approved_name` calls (column P). -/
def autofillWrites (tickets : List Ticket) : List (Nat × String) :=
  tickets.filterMap (fun t =>
    if t.mode = "ERROR" then none
    else if strContains t.suggested "DUPLICATE" then none
    else if t.approved = "" && t.suggested ≠ "" then some (t.row_no, t.suggested)
    else none)

/-- Step 2 over the raw sheet rows: autofill writes (column P), then a
re-read, then the commit phase whose status updates land in column Q.
Returns (final sheet, autofill writes, master updates, status updates). -/
def step2_autofill_and_commit (master_names : List MasterEntry)
    (rows0 : List (List String)) :
    List (List String) × List (Nat × String) × List MasterUpdate × List (Nat × String) :=
  let tickets0 := read_ticket_sheet rows0
  let aw := autofillWrites tickets0
  let rows1 := aw.foldl (fun rs w => setCell rs (w.1 - 2) 15 w.2) rows0
  let tickets1 := read_ticket_sheet rows1
  let musu := commitPhase master_names tickets1
  let rows2 := musu.2.foldl (fun rs w => setCell rs (w.1 - 2) 16 w.2) rows1
  (rows2, aw, musu.1, musu.2)

/-! ## Spec-side restatements used by the claims

Written from the specification's wording, to be compared with the
definitions translated from the source. -/

/-- Candidate set as the spec words it: score every registry entry as
the maximum of the two similarities, keep exactly those meeting the
threshold, sorted descending by score. -/
def candidatesSpec (pSim tSim : String → String → Nat) (name : String)
    (master_names : List MasterEntry) : List ScoredEntry :=
  sortDescByScore ((master_names.map (fun m =>
    (⟨m, max (pSim (normalize_name name) m.norm) (tSim (normalize_name name) m.norm)⟩ : ScoredEntry))).filter
    (fun s => MATCH_THRESHOLD ≤ s.score))

/-- Resolution policy as the spec words it: zero candidates are
unmatched (empty suggestion), one candidate is accepted, two or more
with top-two score gap at most 3 are flagged DUPLICATE, otherwise the
top-scoring candidate is suggested. -/
def resolveSpec : List ScoredEntry → Nat → String × Nat
  | [], best => ("", best)
  | [m0], best => (m0.entry.raw, best)
  | m0 :: m1 :: _, best =>
    if m0.score - m1.score ≤ 3 then ("DUPLICATE: " ++ m0.entry.raw, best)
    else (m0.entry.raw, best)

/-! ## Helper lemmas -/

/-- Characterisation of the commit phase as per-row contributions. -/
theorem commitPhase_eq (master_names : List MasterEntry) (tickets : List Ticket) :
    commitPhase master_names tickets =
      (tickets.flatMap (fun t => outcomeMasterWrites (commitRow master_names t)),
       tickets.filterMap (fun t =>
         (outcomeStatus (commitRow master_names t)).map (fun s => (t.row_no, s)))) := by
  have aux : ∀ (ts : List Ticket) (acc : List MasterUpdate × List (Nat × String)),
      ts.foldl (commitFold master_names) acc =
        (acc.1 ++ ts.flatMap (fun t => outcomeMasterWrites (commitRow master_names t)),
         acc.2 ++ ts.filterMap (fun t =>
           (outcomeStatus (commitRow master_names t)).map (fun s => (t.row_no, s)))) := by
    intro ts
    induction ts with
    | nil => intro acc; simp
    | cons t ts ih =>
      intro acc
      rw [List.foldl_cons, ih]
      cases h : commitRow master_names t <;>
        simp [commitFold, h, outcomeMasterWrites, outcomeStatus, List.append_assoc]
  have h := aux tickets ([], [])
  simpa [commitPhase] using h

/-- The filtered-map characterisation of the matcher's threshold loop. -/
theorem matchFold_eq (pSim tSim : String → String → Nat) (np : String) :
    ∀ (ms : List MasterEntry) (acc : List ScoredEntry × Nat),
      (ms.foldl (matchFold pSim tSim np) acc).1 =
        acc.1 ++ (ms.map (fun m =>
          (⟨m, max (pSim np m.norm) (tSim np m.norm)⟩ : ScoredEntry))).filter
          (fun s => MATCH_THRESHOLD ≤ s.score) := by
  intro ms
  induction ms with
  | nil => intro acc; simp
  | cons m ms ih =>
    intro acc
    rw [List.foldl_cons, ih]
    by_cases h : MATCH_THRESHOLD ≤ max (pSim np m.norm) (tSim np m.norm) <;>
      simp [matchFold, h, List.append_assoc]

theorem all_not_eq_not_any (l : List String) (p : String → Bool) :
    (l.all fun w => !p w) = !l.any p := by
  induction l with
  | nil => rfl
  | cons a l ih => simp [List.all_cons, List.any_cons, ih, Bool.not_or]

/-! ## Claim theorems -/

/-- C4: for every transcript, classification returns UNKNOWN when the
lowercased text contains a non-ticket marker and none of the
ticket-domain markers; otherwise it is FLIGHT iff the flight-keyword
hit count strictly exceeds the train-keyword hit count and is at least
2, else TRAIN iff the train-keyword count is positive, else UNKNOWN —
i.e. the translated classifier agrees with the claim's decision rule on
every input. -/
theorem c4_classifier_decision_rule (text : String) :
    detect_ticket_type text = classifySpec text := by
  simp only [detect_ticket_type, classifySpec, flightHits, trainHits,
    List.countP_eq_length_filter, all_not_eq_not_any, ge_iff_le, gt_iff_lt,
    Bool.and_comm]

/-- C2 (code bug at the flight-number block): on a transcript that
classifies FLIGHT and contains an extractable passenger, the flight
detail extraction does not return normally — the unguarded
`m.groups()` after a failed `re.search` raises `AttributeError` — and
the pipeline therefore produces a `Processing failed` ERROR record even
though no required field is absent. -/
theorem c2_flight_extraction_raises :
    detect_ticket_type "indigo flight booking confirmed\nMr Rahul Sharma (ADULT)" = "FLIGHT" ∧
    extract_flight_passengers "indigo flight booking confirmed\nMr Rahul Sharma (ADULT)" =
      [⟨"Mr Rahul Sharma", ""⟩] ∧
    extract_flight_details "indigo flight booking confirmed\nMr Rahul Sharma (ADULT)" =
      Except.error attrErrorMsg ∧
    process_ticket_text "indigo flight booking confirmed\nMr Rahul Sharma (ADULT)" "t1.pdf" none =
      { mode := "ERROR", error := some ("Processing failed: " ++ attrErrorMsg),
        filename := "t1.pdf" } :=
  ⟨by decide, by decide, rfl, by decide⟩

/-- C5: identifier extraction applies the three rules in fixed order
with first-match-wins — a spaced-digit match short-circuits the rest, a
`PNR:`-labelled token is consulted only when rule 1 fails and is
returned uppercased, and only when both fail is the first
non-excluded bare 10-digit run returned; in particular the three quoted
examples behave as stated. -/
theorem c5_pnr_rule_order :
    (∀ text p, extract_spaced_pnr text = some p → extract_pnr_from_text text = some p) ∧
    (∀ text g, extract_spaced_pnr text = none → scanPnrLabeled 6 10 text.data = some g →
      extract_pnr_from_text text = some (String.mk (g.map toUpperCh))) ∧
    (∀ text, extract_spaced_pnr text = none → scanPnrLabeled 6 10 text.data = none →
      extract_pnr_from_text text =
        ((tenDigitRuns false text.data).filter (fun c => !startsWithAny c excludedHeads)).head?) ∧
    extract_pnr_from_text "6 5 6 2 5 2 6 4 9 6" = some "6562526496" ∧
    extract_pnr_from_text "PNR: AB12CD" = some "AB12CD" ∧
    extract_pnr_from_text "2026021399" = none := by
  refine ⟨?_, ?_, ?_, by decide, by decide, by decide⟩
  · intro text p h
    simp [extract_pnr_from_text, h]
  · intro text g h1 h2
    simp [extract_pnr_from_text, h1, h2]
  · intro text h1 h2
    simp [extract_pnr_from_text, h1, h2]

/-- Witness for C5 at the three quoted inputs, discharging each rule's
hypotheses there. -/
theorem c5_pnr_rule_order_witness :
    extract_pnr_from_text "6 5 6 2 5 2 6 4 9 6" = some "6562526496" ∧
    extract_pnr_from_text "PNR: AB12CD" = some "AB12CD" ∧
    extract_pnr_from_text "2026021399" = none := by
  refine ⟨c5_pnr_rule_order.1 _ "6562526496" (by decide),
          (c5_pnr_rule_order.2.1 "PNR: AB12CD" "AB12CD".data (by decide) (by decide)).trans
            (by decide), ?_⟩
  rw [c5_pnr_rule_order.2.2.1 "2026021399" (by decide) (by decide)]
  decide

/-- C7 is falsified by the TRAIN path: a successful external lookup
whose authoritative passenger list is empty produces a record that is
not an ERROR record yet contains no Passenger. -/
theorem c7_counterexample :
    (process_train "PNR: ABC123" "t7.pdf"
       (some { success := true, data := some { pnrNumber := "ABC123" } })).error = none ∧
    (process_train "PNR: ABC123" "t7.pdf"
       (some { success := true, data := some { pnrNumber := "ABC123" } })).passengers = [] ∧
    (process_train "PNR: ABC123" "t7.pdf"
       (some { success := true, data := some { pnrNumber := "ABC123" } })).mode = "TRAIN" := by
  refine ⟨by decide, by decide, by decide⟩

/-- C7 amended: the no-passenger ERROR policy holds for FLIGHT records
(an empty extracted passenger list yields an ERROR record retaining the
filename), but not for TRAIN: a successful lookup always yields a
non-ERROR record whose passenger count equals the authoritative list's
length — zero when that list is empty. -/
theorem c7_no_passenger_policy :
    (∀ text filename fd, extract_flight_details text = Except.ok fd → fd.passengers = [] →
      process_flight text filename =
        Except.ok { error := some "No passengers found in flight ticket",
                    filename := filename, mode := "ERROR" }) ∧
    (∀ (resp : TrainResponse) (names : List String) (d : TrainData),
      resp.success = true → resp.data = some d →
      (parse_train_response resp names).error = none ∧
      (parse_train_response resp names).passengers.length = d.passengerList.length) := by
  constructor
  · intro text filename fd h hp
    simp [process_flight, h, hp]
  · intro resp names d hs hd
    simp [parse_train_response, hs, hd]

/-- Witness for C7's amended statement: a FLIGHT text whose extraction
succeeds with no passengers, and a successful TRAIN response with an
empty passenger list. -/
theorem c7_no_passenger_policy_witness :
    process_flight "AI 123" "w7.pdf" =
      Except.ok { error := some "No passengers found in flight ticket",
                  filename := "w7.pdf", mode := "ERROR" } ∧
    (parse_train_response { success := true, data := some { pnrNumber := "X" } } []).error = none ∧
    (parse_train_response { success := true, data := some { pnrNumber := "X" } } []).passengers.length =
      ({ pnrNumber := "X" } : TrainData).passengerList.length :=
  ⟨c7_no_passenger_policy.1 "AI 123" "w7.pdf" { flight_number := "AI 123" } rfl rfl,
   c7_no_passenger_policy.2 { success := true, data := some { pnrNumber := "X" } } []
     { pnrNumber := "X" } rfl rfl⟩

/-- After a row's own commit outcome is written back to its status
cell, a second run of the commit loop contributes no master-sheet
writes for that row. -/
theorem commitRow_rerun_writes_nil (master_names : List MasterEntry) (t : Ticket) :
    outcomeMasterWrites (commitRow master_names (applyCommitOutcome master_names t)) = [] := by
  by_cases h1 : t.approved = "" || t.mode = "ERROR"
  · simp [commitRow, applyCommitOutcome, outcomeStatus, outcomeMasterWrites, h1]
  · by_cases h2 : t.commit_status = "COMMITTED"
    · simp [commitRow, applyCommitOutcome, outcomeStatus, outcomeMasterWrites, h1, h2]
    · cases hf : findMaster master_names t.approved with
      | none =>
        by_cases h3 : ("ERROR: '" ++ t.approved ++ "' not found") = "COMMITTED" <;>
          simp [commitRow, applyCommitOutcome, outcomeStatus, outcomeMasterWrites, h1, h2, hf, h3]
      | some m =>
        by_cases hd : is_departure_date t.journey_date <;>
          simp [commitRow, applyCommitOutcome, outcomeStatus, outcomeMasterWrites, h1, h2, hf, hd]

/-- C1: commit is idempotent — a row whose commit status is already
COMMITTED is skipped unconditionally by the commit loop; re-running the
commit phase after each row's status has been written back produces no
master-sheet (destination) writes at all, so each row's destination
write happens exactly once; and the suggestion step writes nothing for
a COMMITTED row. -/
theorem c1_commit_idempotent (pSim tSim : String → String → Nat)
    (master_names : List MasterEntry) (t : Ticket) :
    (t.commit_status = "COMMITTED" → commitRow master_names t = CommitOutcome.skip) ∧
    outcomeMasterWrites (commitRow master_names (applyCommitOutcome master_names t)) = [] ∧
    (∀ tickets : List Ticket,
      (commitPhase master_names (tickets.map (applyCommitOutcome master_names))).1 = []) ∧
    (t.commit_status = "COMMITTED" → step1Row pSim tSim master_names t = none) := by
  refine ⟨?_, commitRow_rerun_writes_nil master_names t, ?_, ?_⟩
  · intro h
    by_cases h1 : t.approved = "" || t.mode = "ERROR" <;> simp [commitRow, h1, h]
  · intro tickets
    rw [commitPhase_eq]
    simp only [List.flatMap_eq_nil_iff, List.mem_map]
    rintro _ ⟨u, _, rfl⟩
    exact commitRow_rerun_writes_nil master_names u
  · intro h
    simp [step1Row, h]

/-- Witness for C1 at a concrete COMMITTED row. -/
theorem c1_commit_idempotent_witness :
    commitRow [] { approved := "X", name := "Y", commit_status := "COMMITTED" } =
      CommitOutcome.skip ∧
    step1Row (fun _ _ => 0) (fun _ _ => 0) []
      { approved := "X", name := "Y", commit_status := "COMMITTED" } = none :=
  ⟨(c1_commit_idempotent (fun _ _ => 0) (fun _ _ => 0) [] _).1 rfl,
   (c1_commit_idempotent (fun _ _ => 0) (fun _ _ => 0) [] _).2.2.2 rfl⟩

/-- C3: for a committed row with a matched registry entry whose journey
date parses, the routing comparison against the cutoff 2026-02-13
decides the destination block: on or after the cutoff the journey date
(formatted), mode, seat, vehicle number/name and the departure time
(falling back to the arrival time) go to the DEPARTURE columns AE–AJ of
the matched registry row; before the cutoff the journey date for
FLIGHT / arrival date otherwise, the same mode/seat/vehicle fields, and
the arrival time (falling back to the departure time) go to the ARRIVAL
columns I–N. -/
theorem c3_date_cutoff_routing (master_names : List MasterEntry) (t : Ticket)
    (m : MasterEntry) (y mo da hh mi : Nat)
    (happr : t.approved ≠ "") (hmode : t.mode ≠ "ERROR")
    (hcs : t.commit_status ≠ "COMMITTED")
    (hfind : findMaster master_names t.approved = some m)
    (hparse : parseDateTimeModel t.journey_date = some (y, mo, da, hh, mi)) :
    commitRow master_names t = CommitOutcome.committed
      (if DEPARTURE_DATE_KEY ≤ tripleKey y mo da then
        [⟨"Master!AE" ++ toString m.row_no, format_mmddyy t.journey_date⟩,
         ⟨"Master!AF" ++ toString m.row_no, t.mode⟩,
         ⟨"Master!AG" ++ toString m.row_no, t.seat⟩,
         ⟨"Master!AH" ++ toString m.row_no, t.train_number⟩,
         ⟨"Master!AI" ++ toString m.row_no, t.train_name⟩,
         ⟨"Master!AJ" ++ toString m.row_no,
          if t.departure_time = "" then t.arrival_time else t.departure_time⟩]
      else
        [⟨"Master!I" ++ toString m.row_no,
          format_mmddyy (if t.mode = "FLIGHT" then t.journey_date else t.arrival_date)⟩,
         ⟨"Master!J" ++ toString m.row_no, t.mode⟩,
         ⟨"Master!K" ++ toString m.row_no, t.seat⟩,
         ⟨"Master!L" ++ toString m.row_no, t.train_number⟩,
         ⟨"Master!M" ++ toString m.row_no, t.train_name⟩,
         ⟨"Master!N" ++ toString m.row_no,
          if t.arrival_time = "" then t.departure_time else t.arrival_time⟩]) := by
  have hne : t.journey_date ≠ "" := by
    intro h
    exact Option.noConfusion (h ▸ hparse)
  have hdep : is_departure_date t.journey_date =
      decide (DEPARTURE_DATE_KEY ≤ tripleKey y mo da) := by
    simp [is_departure_date, hne, hparse]
  by_cases hcut : DEPARTURE_DATE_KEY ≤ tripleKey y mo da <;>
    simp [commitRow, happr, hmode, hcs, hfind, hdep, hcut, MASTER_SHEET]

/-- Witness for C3: a parsed journey date on the cutoff's far side
routes the concrete row into the DEPARTURE block AE–AJ. -/
theorem c3_date_cutoff_routing_witness :
    commitRow [{ raw := "RAHUL SHARMA", norm := "RAHUL SHARMA", row_no := 12 }]
      { journey_date := "2026-02-20", departure_time := "10:35",
        arrival_date := "2026-02-21", arrival_time := "16:20",
        mode := "TRAIN", seat := "A1/22/LB", name := "Mr Rahul Sharma",
        train_number := "12301", train_name := "Howrah Rajdhani",
        approved := "Rahul Sharma" } =
      CommitOutcome.committed
        [⟨"Master!AE12", "02/20/26"⟩, ⟨"Master!AF12", "TRAIN"⟩,
         ⟨"Master!AG12", "A1/22/LB"⟩, ⟨"Master!AH12", "12301"⟩,
         ⟨"Master!AI12", "Howrah Rajdhani"⟩, ⟨"Master!AJ12", "10:35"⟩] := by
  have h := c3_date_cutoff_routing
    [{ raw := "RAHUL SHARMA", norm := "RAHUL SHARMA", row_no := 12 }]
    { journey_date := "2026-02-20", departure_time := "10:35",
      arrival_date := "2026-02-21", arrival_time := "16:20",
      mode := "TRAIN", seat := "A1/22/LB", name := "Mr Rahul Sharma",
      train_number := "12301", train_name := "Howrah Rajdhani",
      approved := "Rahul Sharma" }
    { raw := "RAHUL SHARMA", norm := "RAHUL SHARMA", row_no := 12 }
    2026 2 20 0 0 (by decide) (by decide) (by decide) (by decide) (by decide)
  exact h.trans (by decide)

/-- C9 (implicit): an empty or unparseable journey date makes
`is_departure_date` false, so a committed row is always routed to the
ARRIVAL destination block I–N, never to DEPARTURE. -/
theorem c9_unparsed_date_routes_arrival (master_names : List MasterEntry) (t : Ticket)
    (m : MasterEntry)
    (happr : t.approved ≠ "") (hmode : t.mode ≠ "ERROR")
    (hcs : t.commit_status ≠ "COMMITTED")
    (hfind : findMaster master_names t.approved = some m)
    (hdate : t.journey_date = "" ∨ parseDateTimeModel t.journey_date = none) :
    is_departure_date t.journey_date = false ∧
    commitRow master_names t = CommitOutcome.committed
      [⟨"Master!I" ++ toString m.row_no,
        format_mmddyy (if t.mode = "FLIGHT" then t.journey_date else t.arrival_date)⟩,
       ⟨"Master!J" ++ toString m.row_no, t.mode⟩,
       ⟨"Master!K" ++ toString m.row_no, t.seat⟩,
       ⟨"Master!L" ++ toString m.row_no, t.train_number⟩,
       ⟨"Master!M" ++ toString m.row_no, t.train_name⟩,
       ⟨"Master!N" ++ toString m.row_no,
        if t.arrival_time = "" then t.departure_time else t.arrival_time⟩] := by
  have hdep : is_departure_date t.journey_date = false := by
    rcases hdate with h | h
    · simp [is_departure_date, h]
    · by_cases he : t.journey_date = "" <;> simp [is_departure_date, he, h]
  refine ⟨hdep, ?_⟩
  simp [commitRow, happr, hmode, hcs, hfind, hdep, MASTER_SHEET]

/-- Witness for C9 at a concrete row whose journey date does not
parse. -/
theorem c9_unparsed_date_routes_arrival_witness :
    commitRow [{ raw := "SITA RAM", row_no := 7 }]
      { journey_date := "Feb 20", arrival_date := "2026-02-10",
        arrival_time := "", departure_time := "09:15",
        mode := "TRAIN", seat := "B2/1/SL", name := "Sita Ram",
        train_number := "12020", train_name := "Shatabdi",
        approved := "Sita Ram" } =
      CommitOutcome.committed
        [⟨"Master!I7", "02/10/26"⟩, ⟨"Master!J7", "TRAIN"⟩, ⟨"Master!K7", "B2/1/SL"⟩,
         ⟨"Master!L7", "12020"⟩, ⟨"Master!M7", "Shatabdi"⟩, ⟨"Master!N7", "09:15"⟩] := by
  have h := (c9_unparsed_date_routes_arrival [{ raw := "SITA RAM", row_no := 7 }]
    { journey_date := "Feb 20", arrival_date := "2026-02-10",
      arrival_time := "", departure_time := "09:15",
      mode := "TRAIN", seat := "B2/1/SL", name := "Sita Ram",
      train_number := "12020", train_name := "Shatabdi",
      approved := "Sita Ram" }
    { raw := "SITA RAM", row_no := 7 }
    (by decide) (by decide) (by decide) (by decide) (Or.inr (by decide))).2
  exact h.trans (by decide)

/-- C6: the fuzzy matcher's candidate list is exactly the registry
entries scoring at least 85 under the maximum of the two similarities,
sorted descending, and the suggestion step resolves that list by the
spec's policy (empty suggestion for zero candidates, the sole candidate
for one, a DUPLICATE flag when the top two scores differ by at most 3,
otherwise the top-scoring candidate). -/
theorem c6_matching_and_resolution (pSim tSim : String → String → Nat)
    (master_names : List MasterEntry) (t : Ticket)
    (hname : t.name ≠ "") (hmode : t.mode ≠ "ERROR")
    (hcs : t.commit_status ≠ "COMMITTED") :
    (match_against_master pSim tSim t.name master_names).1 =
      candidatesSpec pSim tSim t.name master_names ∧
    step1Row pSim tSim master_names t =
      some (resolveSpec (match_against_master pSim tSim t.name master_names).1
        (match_against_master pSim tSim t.name master_names).2) := by
  constructor
  · by_cases hempty : master_names.isEmpty
    · rw [List.isEmpty_iff] at hempty
      subst hempty
      simp [match_against_master, candidatesSpec, hname, sortDescByScore]
    · simp only [match_against_master, hname, hempty, Bool.or_false, Bool.false_or,
        decide_eq_true_eq, if_neg, decide_False]
      rw [matchFold_eq]
      simp [candidatesSpec]
  · simp only [step1Row, hname, hmode, hcs, if_neg]
    rcases hm : (match_against_master pSim tSim t.name master_names).1 with
      _ | ⟨m0, _ | ⟨m1, rest⟩⟩
    · simp [hm, resolveSpec]
    · simp [hm, resolveSpec]
    · simp only [resolveSpec, if_false]
      split <;> rfl

/-- Witness for C6: a concrete similarity pair and registry where the
query resolves to the sole above-threshold candidate. -/
theorem c6_matching_and_resolution_witness :
    step1Row (fun a b => if a = b then 90 else 0) (fun _ _ => 0)
      [{ raw := "RAHUL SHARMA", norm := "RAHUL SHARMA", row_no := 5 }]
      { name := "Mr Rahul Sharma" } = some ("RAHUL SHARMA", 90) := by
  have h := (c6_matching_and_resolution (fun a b => if a = b then 90 else 0) (fun _ _ => 0)
    [{ raw := "RAHUL SHARMA", norm := "RAHUL SHARMA", row_no := 5 }]
    { name := "Mr Rahul Sharma" } (by decide) (by decide) (by decide)).2
  rw [h]
  decide

/-! ### Lemmas about whitespace normalisation (for the idempotence claim) -/

/-- No two adjacent whitespace characters. -/
def NoAdjWs : List Char → Prop
  | [] => True
  | [_] => True
  | a :: b :: t => ¬(isWsChar a = true ∧ isWsChar b = true) ∧ NoAdjWs (b :: t)

/-- Every whitespace character of the list is a plain space. -/
def AllWsSpace (l : List Char) : Prop := ∀ c ∈ l, isWsChar c = true → c = ' '

/-- The head, if any, is not whitespace. -/
def HeadNotWs : List Char → Prop
  | [] => True
  | c :: _ => isWsChar c = false

theorem noAdjWs_tail {c : Char} {t : List Char} (h : NoAdjWs (c :: t)) : NoAdjWs t := by
  cases t with
  | nil => trivial
  | cons d t' => exact h.2

theorem allWsSpace_tail {c : Char} {t : List Char} (h : AllWsSpace (c :: t)) : AllWsSpace t :=
  fun d hd => h d (List.mem_cons_of_mem _ hd)

theorem collapseWs_true_head : ∀ l : List Char, HeadNotWs (collapseWs true l)
  | [] => trivial
  | c :: t => by
    by_cases h : isWsChar c = true
    · simpa [collapseWs, h] using collapseWs_true_head t
    · simp only [collapseWs, h]
      simpa [HeadNotWs] using (Bool.eq_false_iff.mpr h)

theorem allWsSpace_collapseWs : ∀ (b : Bool) (l : List Char), AllWsSpace (collapseWs b l)
  | _, [] => by intro c hc; simp [collapseWs] at hc
  | b, c :: t => by
    by_cases h : isWsChar c = true
    · cases b with
      | true => simpa [collapseWs, h] using allWsSpace_collapseWs true t
      | false =>
        intro d hd hws
        simp only [collapseWs, h, if_true] at hd
        rcases List.mem_cons.mp hd with rfl | hd'
        · rfl
        · exact allWsSpace_collapseWs true t d hd' hws
    · intro d hd hws
      simp only [collapseWs, h] at hd
      rcases List.mem_cons.mp hd with rfl | hd'
      · exact absurd hws h
      · exact allWsSpace_collapseWs false t d hd' hws

theorem noAdjWs_cons_of_headNotWs {c : Char} {l : List Char}
    (hl : NoAdjWs l) (hh : HeadNotWs l) : NoAdjWs (c :: l) := by
  cases l with
  | nil => trivial
  | cons d t => exact ⟨fun hpair => by simp [HeadNotWs, hpair.2] at hh, hl⟩

theorem noAdjWs_cons_of_not_ws {c : Char} {l : List Char}
    (hc : isWsChar c = false) (hl : NoAdjWs l) : NoAdjWs (c :: l) := by
  cases l with
  | nil => trivial
  | cons d t => exact ⟨fun hpair => by simp [hc] at hpair, hl⟩

theorem noAdjWs_collapseWs : ∀ (b : Bool) (l : List Char), NoAdjWs (collapseWs b l)
  | _, [] => trivial
  | b, c :: t => by
    by_cases h : isWsChar c = true
    · cases b with
      | true => simpa [collapseWs, h] using noAdjWs_collapseWs true t
      | false =>
        simp only [collapseWs, h, if_true]
        refine noAdjWs_cons_of_headNotWs (noAdjWs_collapseWs true t) (collapseWs_true_head t)
    · simp only [collapseWs, h]
      exact noAdjWs_cons_of_not_ws (Bool.eq_false_iff.mpr h) (noAdjWs_collapseWs false t)

theorem collapseWs_id : ∀ l : List Char, NoAdjWs l → AllWsSpace l →
    collapseWs false l = l ∧ (HeadNotWs l → collapseWs true l = l)
  | [] => fun _ _ => ⟨rfl, fun _ => rfl⟩
  | c :: t => by
    intro hadj hall
    have ih := collapseWs_id t (noAdjWs_tail hadj) (allWsSpace_tail hall)
    by_cases h : isWsChar c = true
    · have hc : c = ' ' := hall c (List.mem_cons_self _ _) h
      subst hc
      have hht : HeadNotWs t := by
        cases t with
        | nil => trivial
        | cons d t' =>
          rcases hadj with ⟨hpair, _⟩
          cases hd : isWsChar d
          · exact hd
          · exact absurd ⟨h, hd⟩ hpair
      constructor
      · simp [collapseWs, h, ih.2 hht]
      · intro hhead
        simp [HeadNotWs, h] at hhead
    · constructor
      · simp [collapseWs, h, ih.1]
      · intro _
        simp [collapseWs, h, ih.1]

theorem mem_collapseWs {c : Char} : ∀ {b : Bool} {l : List Char},
    c ∈ collapseWs b l → c ∈ l ∨ c = ' '
  | _, [], h => by simp [collapseWs] at h
  | b, x :: t, h => by
    by_cases hx : isWsChar x = true
    · cases b with
      | true =>
        simp only [collapseWs, hx, if_true] at h
        rcases mem_collapseWs h with h' | h'
        · exact Or.inl (List.mem_cons_of_mem _ h')
        · exact Or.inr h'
      | false =>
        simp only [collapseWs, hx, if_true] at h
        rcases List.mem_cons.mp h with rfl | h'
        · exact Or.inr rfl
        · rcases mem_collapseWs h' with h'' | h''
          · exact Or.inl (List.mem_cons_of_mem _ h'')
          · exact Or.inr h''
    · simp only [collapseWs, hx] at h
      rcases List.mem_cons.mp h with rfl | h'
      · exact Or.inl (List.mem_cons_self _ _)
      · rcases mem_collapseWs h' with h'' | h''
        · exact Or.inl (List.mem_cons_of_mem _ h'')
        · exact Or.inr h''

theorem mem_trimRight {c : Char} : ∀ {l : List Char}, c ∈ trimRight l → c ∈ l
  | [], h => by simp [trimRight] at h
  | x :: t, h => by
    simp only [trimRight] at h
    cases htr : trimRight t with
    | nil =>
      rw [htr] at h
      by_cases hx : isWsChar x = true
      · simp [hx] at h
      · simp [hx] at h
        simp [h]
    | cons y r =>
      rw [htr] at h
      rcases List.mem_cons.mp h with rfl | h'
      · exact List.mem_cons_self _ _
      · exact List.mem_cons_of_mem _ (mem_trimRight (htr ▸ h'))

theorem mem_dropWhile_sub (p : Char → Bool) : ∀ l : List Char, ∀ c ∈ l.dropWhile p, c ∈ l
  | [], c, h => h
  | x :: t, c, h => by
    by_cases hx : p x = true
    · exact List.mem_cons_of_mem _ (mem_dropWhile_sub p t c (by simpa [List.dropWhile, hx] using h))
    · simpa [List.dropWhile, hx] using h

theorem mem_trimSpaces {c : Char} {l : List Char} (h : c ∈ trimSpaces l) : c ∈ l :=
  mem_dropWhile_sub isWsChar l c (mem_trimRight h)

theorem trimRight_head? : ∀ (l : List Char) (c : Char), l.head? = some c →
    trimRight l = [] ∨ (trimRight l).head? = some c
  | [], c, h => by simp at h
  | x :: t, c, h => by
    have hc : x = c := by simpa using h
    subst hc
    simp only [trimRight]
    cases htr : trimRight t with
    | nil =>
      by_cases hx : isWsChar x = true
      · simp [hx]
      · simp [hx]
    | cons y r => simp

theorem noAdjWs_dropWhile (p : Char → Bool) : ∀ l : List Char, NoAdjWs l →
    NoAdjWs (l.dropWhile p)
  | [], h => h
  | c :: t, h => by
    by_cases hc : p c = true
    · simpa [List.dropWhile, hc] using noAdjWs_dropWhile p t (noAdjWs_tail h)
    · simpa [List.dropWhile, hc] using h

theorem noAdjWs_trimRight : ∀ l : List Char, NoAdjWs l → NoAdjWs (trimRight l)
  | [], h => h
  | x :: t, h => by
    have ih := noAdjWs_trimRight t (noAdjWs_tail h)
    simp only [trimRight]
    cases htr : trimRight t with
    | nil =>
      by_cases hx : isWsChar x = true
      · simp [hx]; trivial
      · simp [hx]; trivial
    | cons y r =>
      rw [htr] at ih
      cases t with
      | nil => simp [trimRight] at htr
      | cons d t' =>
        rcases trimRight_head? (d :: t') d rfl with h0 | h0
        · rw [h0] at htr; exact absurd htr (by simp)
        · rw [htr] at h0
          have hyd : y = d := by simpa using h0
          subst hyd
          exact ⟨h.1, ih⟩

theorem dropWhile_dropWhile_self (p : Char → Bool) : ∀ l : List Char,
    (l.dropWhile p).dropWhile p = l.dropWhile p
  | [] => rfl
  | c :: t => by
    by_cases hc : p c = true
    · simpa [List.dropWhile, hc] using dropWhile_dropWhile_self p t
    · simp [List.dropWhile, hc]

theorem trimRight_trimRight : ∀ l : List Char, trimRight (trimRight l) = trimRight l
  | [] => rfl
  | x :: t => by
    have ih := trimRight_trimRight t
    simp only [trimRight]
    cases htr : trimRight t with
    | nil =>
      by_cases hx : isWsChar x = true
      · simp [hx, trimRight]
      · simp [hx, trimRight]
    | cons y r =>
      rw [htr] at ih
      simp only [trimRight, htr]
      show (match trimRight (y :: r) with
        | [] => if isWsChar x = true then [] else [x]
        | r' => x :: r') = x :: y :: r
      rw [ih]

theorem head?_dropWhile_not (p : Char → Bool) : ∀ (l : List Char) (c : Char),
    (l.dropWhile p).head? = some c → p c = false
  | [], c, h => by simp at h
  | x :: t, c, h => by
    by_cases hx : p x = true
    · exact head?_dropWhile_not p t c (by simpa [List.dropWhile, hx] using h)
    · have : x = c := by simpa [List.dropWhile, hx] using h
      subst this
      exact Bool.eq_false_iff.mpr hx

theorem trimSpaces_trimSpaces : ∀ l : List Char, trimSpaces (trimSpaces l) = trimSpaces l := by
  intro l
  unfold trimSpaces
  have hdw : (trimRight (l.dropWhile isWsChar)).dropWhile isWsChar =
      trimRight (l.dropWhile isWsChar) := by
    cases htr : trimRight (l.dropWhile isWsChar) with
    | nil => rfl
    | cons y r =>
      cases hd : (l.dropWhile isWsChar).head? with
      | none =>
        rw [List.head?_eq_none_iff] at hd
        rw [hd] at htr
        exact absurd htr (by simp [trimRight])
      | some c =>
        rcases trimRight_head? _ _ hd with h0 | h0
        · rw [h0] at htr; exact absurd htr (by simp)
        · rw [htr] at h0
          have : y = c := by simpa using h0
          subst this
          have := head?_dropWhile_not isWsChar l y hd
          simp [List.dropWhile, this]
  rw [hdw, trimRight_trimRight]

theorem toUpperCh_id {c : Char} (h : isUpperChar c = true ∨ c = ' ') : toUpperCh c = c := by
  rcases h with h | rfl
  · simp only [isUpperChar, Bool.and_eq_true, decide_eq_true_eq] at h
    unfold toUpperCh
    rw [if_neg]
    intro hlow
    simp only [isLowerChar, Bool.and_eq_true, decide_eq_true_eq] at hlow
    exact absurd (le_trans hlow.1 h.2) (by decide)
  · decide

theorem map_toUpperCh_id : ∀ l : List Char,
    (∀ c ∈ l, isUpperChar c = true ∨ c = ' ') → l.map toUpperCh = l
  | [], _ => rfl
  | c :: t, h => by
    rw [List.map_cons, toUpperCh_id (h c (List.mem_cons_self _ _)),
        map_toUpperCh_id t (fun d hd => h d (List.mem_cons_of_mem _ hd))]

/-- C8 corrected: normalization is idempotent exactly on the inputs
whose normalized form is left unchanged by the honorific-stripping
pass.  (It is not idempotent in general: stripping non-letter
characters can create a fresh honorific token, as the counterexample
shows.) -/
theorem c8_normalize_idempotent_on_fixpoints (x : String)
    (h : removeHonorifics (normalize_name x).data = (normalize_name x).data) :
    normalize_name (normalize_name x) = normalize_name x := by
  by_cases hx : x = ""
  · subst hx; rfl
  · by_cases hy0 : normalize_name x = ""
    · rw [hy0]; rfl
    · have e : (normalize_name x).data =
          trimSpaces (collapseWs false
            ((removeHonorifics (x.data.map toUpperCh)).filter
              (fun c => isUpperChar c || c = ' '))) := by
        simp only [normalize_name, if_neg hx]
      have hchars : ∀ c ∈ (normalize_name x).data, isUpperChar c = true ∨ c = ' ' := by
        intro c hc
        rw [e] at hc
        rcases mem_collapseWs (mem_trimSpaces hc) with hc' | hc'
        · have h2 := (List.mem_filter.mp hc').2
          simp only [Bool.or_eq_true, decide_eq_true_eq] at h2
          exact h2
        · exact Or.inr hc'
      have hadj : NoAdjWs (normalize_name x).data := by
        rw [e]
        exact noAdjWs_trimRight _ (noAdjWs_dropWhile _ _ (noAdjWs_collapseWs false _))
      have hall : AllWsSpace (normalize_name x).data := by
        intro c hc hws
        rw [e] at hc
        exact allWsSpace_collapseWs false _ c (mem_trimSpaces hc) hws
      have hup : (normalize_name x).data.map toUpperCh = (normalize_name x).data :=
        map_toUpperCh_id _ hchars
      have hfil : (normalize_name x).data.filter (fun c => isUpperChar c || c = ' ') =
          (normalize_name x).data := by
        apply List.filter_eq_self.mpr
        intro c hc
        rcases hchars c hc with h1 | h1
        · simp [h1]
        · simp [h1]
      have hcol : collapseWs false (normalize_name x).data = (normalize_name x).data :=
        (collapseWs_id _ hadj hall).1
      have htrim : trimSpaces (normalize_name x).data = (normalize_name x).data := by
        rw [e]
        exact trimSpaces_trimSpaces _
      clear e hx
      generalize hg : normalize_name x = y at h hup hfil hcol htrim hy0
      show (if y = "" then ""
        else String.mk (trimSpaces (collapseWs false
          ((removeHonorifics (y.data.map toUpperCh)).filter
            (fun c => isUpperChar c || c = ' '))))) = y
      rw [if_neg hy0, hup, h, hfil, hcol, htrim]

/-- C8 as stated is false: a single character lost to the
strip-non-letters step can leave behind a fresh honorific token, so a
second normalization removes more — `"M.R"` normalizes to `"MR"`,
which normalizes to `""`. -/
theorem c8_normalize_not_idempotent :
    normalize_name (normalize_name "M.R") ≠ normalize_name "M.R" := by decide

/-- Witness for C8's amended statement at an input whose normalized
form contains no honorific token. -/
theorem c8_normalize_idempotent_on_fixpoints_witness :
    normalize_name (normalize_name "RAHUL SHARMA") = normalize_name "RAHUL SHARMA" :=
  c8_normalize_idempotent_on_fixpoints "RAHUL SHARMA" (by decide)

/-! ### Lemmas for the sheet frame property -/

theorem readTickets_row_no_ge (n : Nat) (rows : List (List String)) :
    ∀ t ∈ readTickets n rows, n ≤ t.row_no := by
  induction rows generalizing n with
  | nil => intro t ht; simp [readTickets] at ht
  | cons r rs ih =>
    intro t ht
    simp only [readTickets] at ht
    by_cases h : r.length < 8
    · rw [if_pos h] at ht
      have := ih (n + 1) t ht
      omega
    · rw [if_neg h] at ht
      rcases List.mem_cons.mp ht with rfl | ht'
      · simp [mkTicket]
      · have := ih (n + 1) t ht'
        omega

theorem readTickets_skip_short_row :
    ∀ (rows : List (List String)) (n i : Nat) (row : List String),
      rows.get? i = some row → row.length < 8 →
      ∀ t ∈ readTickets n rows, t.row_no ≠ n + i := by
  intro rows
  induction rows with
  | nil => intro n i row hget; simp at hget
  | cons r rs ih =>
    intro n i row hget hshort t ht
    cases i with
    | zero =>
      have hr : r = row := by simpa using hget
      subst hr
      simp only [readTickets, if_pos hshort] at ht
      have := readTickets_row_no_ge (n + 1) rs t ht
      omega
    | succ j =>
      have hget' : rs.get? j = some row := by simpa using hget
      simp only [readTickets] at ht
      by_cases h : r.length < 8
      · rw [if_pos h] at ht
        have := ih (n + 1) j row hget' hshort t ht
        omega
      · rw [if_neg h] at ht
        rcases List.mem_cons.mp ht with rfl | ht'
        · simp only [mkTicket]
          omega
        · have := ih (n + 1) j row hget' hshort t ht'
          omega

/-- Rows kept by the sheet read have row numbers at least 2 and never
that of a skipped short row. -/
theorem read_row_targets (rows : List (List String)) (i : Nat) (row : List String)
    (hget : rows.get? i = some row) (hshort : row.length < 8) :
    ∀ t ∈ read_ticket_sheet rows, 2 ≤ t.row_no ∧ t.row_no ≠ i + 2 := by
  intro t ht
  refine ⟨readTickets_row_no_ge 2 rows t ht, ?_⟩
  have := readTickets_skip_short_row rows 2 i row hget hshort t ht
  omega

theorem setCell_get?_ne (rows : List (List String)) (j c : Nat) (v : String) (i : Nat)
    (h : j ≠ i) : (setCell rows j c v).get? i = rows.get? i := by
  induction rows generalizing j i with
  | nil => simp [setCell]
  | cons r rs ih =>
    cases j with
    | zero =>
      cases i with
      | zero => omega
      | succ i' => simp [setCell]
    | succ j' =>
      cases i with
      | zero => simp [setCell]
      | succ i' => simpa [setCell] using ih j' i' (by omega)

theorem foldl_setCell_get?_eq {α : Type} (g : List (List String) → α → List (List String))
    (ws : List α) (i : Nat)
    (h : ∀ rs w, w ∈ ws → (g rs w).get? i = rs.get? i) :
    ∀ rows, (ws.foldl g rows).get? i = rows.get? i := by
  induction ws with
  | nil => intro rows; rfl
  | cons w ws ih =>
    intro rows
    rw [List.foldl_cons, ih (fun rs w' hw' => h rs w' (List.mem_cons_of_mem _ hw')),
        h rows w (List.mem_cons_self _ _)]

/-- Targets of the autofill writes come from the ticket list. -/
theorem autofillWrites_targets (tickets : List Ticket) :
    ∀ w ∈ autofillWrites tickets, ∃ t ∈ tickets, w.1 = t.row_no := by
  intro w hw
  rcases List.mem_filterMap.mp hw with ⟨t, ht, hmap⟩
  refine ⟨t, ht, ?_⟩
  split at hmap
  · exact absurd hmap (by simp)
  · split at hmap
    · exact absurd hmap (by simp)
    · split at hmap
      · cases hmap
        rfl
      · exact absurd hmap (by simp)

/-- Targets of the commit phase's status updates come from the ticket
list. -/
theorem commitStatus_targets (master_names : List MasterEntry) (tickets : List Ticket) :
    ∀ w ∈ (commitPhase master_names tickets).2, ∃ t ∈ tickets, w.1 = t.row_no := by
  intro w hw
  rw [commitPhase_eq] at hw
  rcases List.mem_filterMap.mp hw with ⟨t, ht, hmap⟩
  rcases Option.map_eq_some'.mp hmap with ⟨s, _, rfl⟩
  exact ⟨t, ht, rfl⟩

/-- C10 (implicit): a ticket-sheet row with fewer than 8 cells is
excluded by the sheet read, so neither reconciliation step emits a
suggestion/score, approved-name or commit-status write for its row
number, and the row itself is unchanged by both steps. -/
theorem c10_short_rows_untouched (pSim tSim : String → String → Nat)
    (master_names : List MasterEntry) (rows : List (List String))
    (i : Nat) (row : List String)
    (hget : rows.get? i = some row) (hshort : row.length < 8) :
    (∀ w ∈ (step1_match_and_suggest pSim tSim master_names rows).2, w.1 ≠ i + 2) ∧
    (step1_match_and_suggest pSim tSim master_names rows).1.get? i = some row ∧
    (∀ w ∈ (step2_autofill_and_commit master_names rows).2.1, w.1 ≠ i + 2) ∧
    (∀ w ∈ (step2_autofill_and_commit master_names rows).2.2.2, w.1 ≠ i + 2) ∧
    (step2_autofill_and_commit master_names rows).1.get? i = some row := by
  have hread := read_row_targets rows i row hget hshort
  -- step 1 write targets
  have h1t : ∀ w ∈ (read_ticket_sheet rows).filterMap
      (fun t => (step1Row pSim tSim master_names t).map (fun r => (t.row_no, r.1, r.2))),
      2 ≤ w.1 ∧ w.1 ≠ i + 2 := by
    intro w hw
    rcases List.mem_filterMap.mp hw with ⟨t, ht, hmap⟩
    rcases Option.map_eq_some'.mp hmap with ⟨r, _, rfl⟩
    exact hread t ht
  -- step 2 phase-1 write targets
  have h2awt : ∀ w ∈ autofillWrites (read_ticket_sheet rows), 2 ≤ w.1 ∧ w.1 ≠ i + 2 := by
    intro w hw
    rcases autofillWrites_targets _ w hw with ⟨t, ht, he⟩
    rw [he]
    exact hread t ht
  -- the sheet after phase 1 of step 2 still holds the short row
  have hrows1 : ((autofillWrites (read_ticket_sheet rows)).foldl
      (fun rs w => setCell rs (w.1 - 2) 15 w.2) rows).get? i = some row := by
    rw [foldl_setCell_get?_eq]
    · exact hget
    · intro rs w hw
      rcases h2awt w hw with ⟨hge, hne⟩
      exact setCell_get?_ne _ _ _ _ _ (by omega)
  -- step 2 phase-2 status targets
  have h2st : ∀ w ∈ (commitPhase master_names (read_ticket_sheet
      ((autofillWrites (read_ticket_sheet rows)).foldl
        (fun rs w => setCell rs (w.1 - 2) 15 w.2) rows))).2,
      2 ≤ w.1 ∧ w.1 ≠ i + 2 := by
    intro w hw
    rcases commitStatus_targets _ _ w hw with ⟨t, ht, he⟩
    rw [he]
    exact read_row_targets _ i row hrows1 hshort t ht
  refine ⟨fun w hw => (h1t w hw).2, ?_, fun w hw => (h2awt w hw).2,
    fun w hw => (h2st w hw).2, ?_⟩
  · show (((read_ticket_sheet rows).filterMap
        (fun t => (step1Row pSim tSim master_names t).map (fun r => (t.row_no, r.1, r.2)))).foldl
        (fun rs w => setCell (setCell rs (w.1 - 2) 13 w.2.1) (w.1 - 2) 14 (toString w.2.2))
        rows).get? i = some row
    rw [foldl_setCell_get?_eq]
    · exact hget
    · intro rs w hw
      rcases h1t w hw with ⟨hge, hne⟩
      rw [setCell_get?_ne _ _ _ _ _ (by omega), setCell_get?_ne _ _ _ _ _ (by omega)]
  · show ((commitPhase master_names (read_ticket_sheet
        ((autofillWrites (read_ticket_sheet rows)).foldl
          (fun rs w => setCell rs (w.1 - 2) 15 w.2) rows))).2.foldl
        (fun rs w => setCell rs (w.1 - 2) 16 w.2)
        ((autofillWrites (read_ticket_sheet rows)).foldl
          (fun rs w => setCell rs (w.1 - 2) 15 w.2) rows)).get? i = some row
    rw [foldl_setCell_get?_eq]
    · exact hrows1
    · intro rs w hw
      rcases h2st w hw with ⟨hge, hne⟩
      exact setCell_get?_ne _ _ _ _ _ (by omega)

/-- Witness for C10 at a concrete sheet holding one two-cell row. -/
theorem c10_short_rows_untouched_witness :
    (step1_match_and_suggest (fun _ _ => 0) (fun _ _ => 0) [] [["a", "b"]]).1.get? 0 =
      some ["a", "b"] ∧
    (step2_autofill_and_commit [] [["a", "b"]]).1.get? 0 = some ["a", "b"] :=
  ⟨(c10_short_rows_untouched (fun _ _ => 0) (fun _ _ => 0) [] [["a", "b"]] 0 ["a", "b"]
      rfl (by decide)).2.1,
   (c10_short_rows_untouched (fun _ _ => 0) (fun _ _ => 0) [] [["a", "b"]] 0 ["a", "b"]
      rfl (by decide)).2.2.2.2⟩

end TicketExtractor
